import Mathlib

/-!
# NibeHeater: message handling of the Nibe heat pump gateway

A shallow embedding of `lib/NibeHeater/src/NibeHeater.cpp`:
`NibeHeater::HandleMessage`, `NibeHeater::ReadRequest` and
`NibeHeater::WriteRequest`.

Conventions of the embedding

* Bytes and machine integers are natural numbers; a store into a one-byte
  field is written with an explicit `% 256` where the stored value could be
  wider than the field.
* A buffer is the list of its bytes, the length of the list being the
  capacity of the buffer.  A read at index `k` is `getD k 0`, a write is
  `List.set`.  Accesses beyond the capacity are undefined behaviour in C++
  and outside of what the embedding describes.
* `NibeHeater.h` is not part of the sources at hand.  What the three
  functions need from it (the command codes, the size of the value array of
  `DataElement_t`) is collected in the structure `Header`, and the theorems
  hold for every `Header`.
* The value store (`IoContainer`) and the two message handlers
  (`NibeMessage`) are external.  The store is an abstract state with the four
  operations the code calls; a call of `Send`, `SendMessage` or `SetIoVal` is
  recorded, in program order, in a trace of `Effect`s.
* The preprocessor symbol `WIN32` selects between two variants of the code;
  it is the Boolean parameter `WIN32` of the embedded functions.
* The decoder of the specification (`specGroup`, `specDecode`) is written
  down from the words of the specification and compared with the loop of the
  source.
* The checksum test and the `NAK` reply live in `NibeMessage`, which is not
  part of the sources at hand; `checksum`, `Frame.valid` and `receive` are
  written down from the specification.
-/

namespace NibeHeater

/-- The acknowledge byte, `ACK (0x06)` of the header comment of the source. -/
def ACK : Nat := 0x06

/-- The negative acknowledge byte, `NAK (0x15)` of the header comment. -/
def NAK : Nat := 0x15

/-- Declarations of `NibeHeater.h` used by the code: the four command codes
that label the cases of the `switch` in `HandleMessage` (case labels of one
`switch` are pairwise different in C++) and `sizeof(data.value.array)`, the
byte size of the value array of a `DataElement_t` (an array has at least one
element in C++). -/
structure Header where
  DATABLOCK : Nat
  READDATA : Nat
  READREQ : Nat
  WRITEREQ : Nat
  valueSize : Nat
  labels_nodup : [DATABLOCK, READDATA, READREQ, WRITEREQ].Nodup
  valueSize_pos : 0 < valueSize

/-- The `msg` part of a `Message`: node id, command, length and data buffer. -/
structure Message where
  nodeid : Nat
  command : Nat
  length : Nat
  data : List Nat
deriving DecidableEq, Repr

/-- The local `DataElement_t data` of `HandleMessage`: `data.adress` and
`data.value.array`. -/
structure DataElement_t where
  adress : Nat
  array : List Nat
deriving DecidableEq, Repr

/-- An element of the value store: `nIdentifer` and the bytes of `ioVal`. -/
structure IoElement where
  nIdentifer : Nat
  ioVal : List Nat
deriving DecidableEq, Repr

/-- The kind passed to `GetExpiredIoElement`: `R` or `RW`. -/
inductive IoType where
  | R
  | RW
deriving DecidableEq, Repr

/-- The operations of the external `IoContainer` called by the code, over an
abstract store state `σ`.  `GetExpiredIoElement` may change the store (it
selects the next pending entry), so it returns the new state as well. -/
structure IoContainer (σ : Type) where
  GetIoElement : σ → Int → Option IoElement
  GetIoSize : σ → Int → Nat
  GetExpiredIoElement : σ → IoType → Int × σ
  SetIoVal : σ → Nat → List Nat → Nat → σ

/-- The observable calls made by `HandleMessage`, in program order.
`SetIoVal adress array size` records the arguments of
`_ioContainer->SetIoVal(data.adress, data.value.array, size)`: the whole
value array as it is at the time of the call, and the size passed. -/
inductive Effect where
  | rxSend (b : Nat)
  | txSend (b : Nat)
  | txSendMessage (m : Message)
  | SetIoVal (adress : Nat) (array : List Nat) (size : Nat)
deriving DecidableEq, Repr

/-- Arduino `word(h, l)`: both arguments are bytes, the result is the 16-bit
value with high byte `h` and low byte `l`. -/
def word (h l : Nat) : Nat := ((h % 256) <<< 8) ||| (l % 256)

/-- The state of the `do ... while` loop of `HandleMessage`: the locals `i`,
`size` and `data`, the store and the trace of effects so far. -/
structure LoopState (σ : Type) where
  i : Nat
  size : Nat
  data : DataElement_t
  store : σ
  trace : List Effect

/-- The address of the group at offset `i` (lines 103-107): the variant with
`WIN32` takes `data[i]` as the high byte, the other one `data[i + 1]`. -/
def groupAdress (WIN32 : Bool) (pMsg : Message) (i : Nat) : Nat :=
  if WIN32 then word (pMsg.data.getD i 0) (pMsg.data.getD (i + 1) 0)
  else word (pMsg.data.getD (i + 1) 0) (pMsg.data.getD i 0)

/-- One pass through the body of the `do ... while` loop (lines 103-124). -/
def loopBody {σ : Type} (H : Header) (WIN32 : Bool) (io : IoContainer σ)
    (pMsg : Message) (st : LoopState σ) : LoopState σ :=
  let i := st.i
  let adress := groupAdress WIN32 pMsg i
  let st1 : LoopState σ :=
    if 0 < st.size ∧ adress ≠ 0xffff then
      { st with
        store := io.SetIoVal st.store st.data.adress st.data.array st.size
        trace := st.trace ++ [Effect.SetIoVal st.data.adress st.data.array st.size]
        size := 0 }
    else st
  let st2 : LoopState σ :=
    if adress ≠ 0xffff then { st1 with data := { st1.data with adress := adress } }
    else st1
  let st3 : LoopState σ :=
    if st2.size < H.valueSize - 1 then
      { st2 with
        data := { st2.data with
          array := (st2.data.array.set st2.size (pMsg.data.getD (i + 2) 0)).set
            (st2.size + 1) (pMsg.data.getD (i + 3) 0) }
        size := st2.size + 2 }
    else st2
  { st3 with i := i + 4 }

/-- The `do ... while (i < pMsg->msg.length)` loop (lines 101-125): the body
runs, then the condition decides whether it runs again. -/
def decodeLoop {σ : Type} (H : Header) (WIN32 : Bool) (io : IoContainer σ)
    (pMsg : Message) (st : LoopState σ) : LoopState σ :=
  if _h : (loopBody H WIN32 io pMsg st).i < pMsg.length then
    decodeLoop H WIN32 io pMsg (loopBody H WIN32 io pMsg st)
  else loopBody H WIN32 io pMsg st
termination_by pMsg.length - st.i
decreasing_by
  simp only [loopBody] at _h ⊢
  omega

/-- `memcpy(&dst[off], src, n)`: the bytes `src[0 .. n)` are stored at
`dst[off .. off + n)`. -/
def memcpy (dst : List Nat) (off : Nat) (src : List Nat) : Nat → List Nat
  | 0 => dst
  | n + 1 => (memcpy dst off src n).set (off + n) (src.getD n 0)

/-- The two identifier bytes stored into `pMsg->msg.data[0]` and `[1]` by
`ReadRequest` (lines 172-178) and `WriteRequest` (lines 198-204). -/
def storeIdentifier (WIN32 : Bool) (nIdentifer : Nat) (data : List Nat) : List Nat :=
  if WIN32 then
    (data.set 1 ((nIdentifer &&& 0x00ff) % 256)).set 0 ((nIdentifer >>> 8) % 256)
  else
    (data.set 0 ((nIdentifer &&& 0x00ff) % 256)).set 1 ((nIdentifer >>> 8) % 256)

/-- `NibeHeater::ReadRequest(idx, pMsg)` (lines 159-183).  `pMsg` may be the
null pointer (`none`); the result is the returned `bOk` and the message
buffer after the call. -/
def ReadRequest {σ : Type} (H : Header) (WIN32 : Bool) (io : IoContainer σ) (s : σ)
    (idx : Int) (pMsg : Option Message) : Bool × Option Message :=
  match io.GetIoElement s idx, pMsg with
  | some pIo, some m =>
    (true, some
      { nodeid := 0xc0
        command := H.READREQ
        length := 2
        data := storeIdentifier WIN32 pIo.nIdentifer m.data })
  | _, _ => (false, pMsg)

/-- `NibeHeater::WriteRequest(idx, pMsg)` (lines 185-211).  The function
dereferences `pMsg` without a test, so `pMsg` is a message buffer here. -/
def WriteRequest {σ : Type} (H : Header) (WIN32 : Bool) (io : IoContainer σ) (s : σ)
    (idx : Int) (pMsg : Message) : Bool × Message :=
  match io.GetIoElement s idx with
  | some pIo =>
    let dataSize := io.GetIoSize s idx
    (true,
      { nodeid := 0xc0
        command := H.WRITEREQ
        length := (2 + dataSize) % 256
        data := memcpy (storeIdentifier WIN32 pIo.nIdentifer pMsg.data) 2 pIo.ioVal dataSize })
  | none => (false, pMsg)

/-- What one call of `HandleMessage` leaves behind: the returned `bOk`, the
store, the message buffer of the Tx handler and the trace of effects. -/
structure Outcome (σ : Type) where
  ret : Bool
  store : σ
  txMsg : Message
  trace : List Effect

/-- The locals of the `DATABLOCK`/`READDATA` case on entry to the loop:
`i = 0`, `size = 0`, `data = {0}`, after `_rxMsgHandler->Send(ACK)`. -/
def loopInit {σ : Type} (H : Header) (s : σ) : LoopState σ :=
  { i := 0
    size := 0
    data := { adress := 0, array := List.replicate H.valueSize 0 }
    store := s
    trace := [Effect.rxSend ACK] }

/-- `NibeHeater::HandleMessage(pMsg)` (lines 78-157).  `s` is the state of
`_ioContainer` and `txMsg` the buffer `_txMsgHandler->GetMessage()` points
to.  The `switch` is the chain of tests on the (pairwise different) case
labels. -/
def HandleMessage {σ : Type} (H : Header) (WIN32 : Bool) (io : IoContainer σ) (s : σ)
    (txMsg : Message) (pMsg : Message) : Outcome σ :=
  if pMsg.command = H.DATABLOCK ∨ pMsg.command = H.READDATA then
    let st := decodeLoop H WIN32 io pMsg (loopInit H s)
    { ret := true, store := st.store, txMsg := txMsg, trace := st.trace }
  else if pMsg.command = H.READREQ then
    let r := io.GetExpiredIoElement s IoType.R
    let b := ReadRequest H WIN32 io r.2 r.1 (some txMsg)
    if b.1 then
      { ret := true, store := r.2, txMsg := b.2.getD txMsg
        trace := [Effect.txSendMessage (b.2.getD txMsg)] }
    else
      { ret := true, store := r.2, txMsg := b.2.getD txMsg
        trace := [Effect.txSend ACK] }
  else if pMsg.command = H.WRITEREQ then
    let r := io.GetExpiredIoElement s IoType.RW
    let b := WriteRequest H WIN32 io r.2 r.1 txMsg
    if b.1 then
      { ret := true, store := r.2, txMsg := b.2
        trace := [Effect.txSendMessage b.2] }
    else
      { ret := true, store := r.2, txMsg := b.2
        trace := [Effect.txSend ACK] }
  else
    { ret := false, store := s, txMsg := txMsg, trace := [Effect.txSend ACK] }

/-- The value-store writes of a trace: for every `SetIoVal` call the address
and the `size` bytes the call hands over, the first `size` bytes of the
value array. -/
def writes : List Effect → List (Nat × List Nat × Nat)
  | [] => []
  | Effect.SetIoVal a arr sz :: t => (a, arr.take sz, sz) :: writes t
  | _ :: t => writes t

/-- The transmissions of a trace: the calls of `Send` and `SendMessage`. -/
def transmissions : List Effect → List Effect
  | [] => []
  | Effect.SetIoVal _ _ _ :: t => transmissions t
  | e :: t => e :: transmissions t

/-- The trace consists of the acknowledge sent on entry followed by calls of
`SetIoVal` only. -/
def AckThenWrites (t : List Effect) : Prop :=
  ∃ ws, t = Effect.rxSend ACK :: ws ∧ ∀ e ∈ ws, ∃ a arr sz, e = Effect.SetIoVal a arr sz

/-- The accumulated address is never the sentinel, and no recorded write
carries it. -/
def NoSentinel {σ : Type} (st : LoopState σ) : Prop :=
  st.data.adress ≠ 0xffff ∧
    ∀ a arr sz, Effect.SetIoVal a arr sz ∈ st.trace → a ≠ 0xffff

/-- The element the group at offset `4 * j` of the payload stands for: its
address, its two value bytes and the size 2. -/
def groupElement (WIN32 : Bool) (pMsg : Message) (j : Nat) : Nat × List Nat × Nat :=
  (groupAdress WIN32 pMsg (4 * j),
    [pMsg.data.getD (4 * j + 2) 0, pMsg.data.getD (4 * j + 3) 0], 2)

/-- The loop state after `j` groups, none with the sentinel address, have
been read: the first `j - 1` of them are written, the `j`-th is held in
`data` and `size`. -/
def Accumulated {σ : Type} (H : Header) (WIN32 : Bool) (pMsg : Message) (j : Nat)
    (st : LoopState σ) : Prop :=
  st.i = 4 * j ∧ st.data.array.length = H.valueSize ∧
    writes st.trace = (List.range (j - 1)).map (groupElement WIN32 pMsg) ∧
    (j = 0 → st.size = 0) ∧
    (1 ≤ j → st.size = 2 ∧ (st.data.adress, st.data.array.take 2, 2) =
      groupElement WIN32 pMsg (j - 1))

/-- The value of `size` when the test of line 118 is made: 0 when the body
has just written the accumulated element (lines 109-113), otherwise the value
on entry to the body. -/
def sizeAtAppend {σ : Type} (WIN32 : Bool) (pMsg : Message) (st : LoopState σ) : Nat :=
  if 0 < st.size ∧ groupAdress WIN32 pMsg st.i ≠ 0xffff then 0 else st.size

/-- The bounds the loop keeps: `size` is even and at most the size of the
value array, the value array keeps its size, and every recorded `SetIoVal`
call has an even size between 2 and the size of the value array and was
handed the whole value array. -/
def SizeBounds {σ : Type} (H : Header) (st : LoopState σ) : Prop :=
  st.size % 2 = 0 ∧ st.size ≤ H.valueSize ∧ st.data.array.length = H.valueSize ∧
    ∀ a arr sz, Effect.SetIoVal a arr sz ∈ st.trace →
      sz % 2 = 0 ∧ 2 ≤ sz ∧ sz ≤ H.valueSize ∧ arr.length = H.valueSize

/-! ## The decoder as the specification describes it -/

/-- The accumulating element of the data block decoder of the specification
(§4.3): `(current_address, current_value_bytes, current_size)`. -/
structure Accumulator where
  current_address : Nat
  current_value_bytes : List Nat
  current_size : Nat
deriving DecidableEq, Repr

/-- One group of the specified algorithm, steps 2 to 4 of §4.3, in the
words of the specification: if the accumulated size is nonzero and the
address of the group is not the sentinel, the current element is emitted and
the accumulation reset; if the address is not the sentinel it becomes the
current address; if there is room (`current_size < max_value_size - 1`) the
two value bytes of the group are appended and the size advances by 2.  The
result is the accumulator after the group and what the group emitted. -/
def specGroup (max_value_size : Nat) (acc : Accumulator) (address b0 b1 : Nat) :
    Accumulator × List (Nat × List Nat × Nat) :=
  let emitted : List (Nat × List Nat × Nat) :=
    if acc.current_size ≠ 0 ∧ address ≠ 0xffff then
      [(acc.current_address, acc.current_value_bytes, acc.current_size)]
    else []
  let acc1 : Accumulator :=
    if acc.current_size ≠ 0 ∧ address ≠ 0xffff then
      { acc with current_value_bytes := [], current_size := 0 }
    else acc
  let acc2 : Accumulator :=
    if address ≠ 0xffff then { acc1 with current_address := address } else acc1
  let acc3 : Accumulator :=
    if acc2.current_size < max_value_size - 1 then
      { acc2 with
        current_value_bytes := acc2.current_value_bytes ++ [b0, b1]
        current_size := acc2.current_size + 2 }
    else acc2
  (acc3, emitted)

/-- The flush sequence of the specified algorithm over the groups at the
given offsets of the payload, from the accumulator `acc` on.  The address of
a group is read with the address expression of the source. -/
def specFlushes (max_value_size : Nat) (WIN32 : Bool) (pMsg : Message) :
    List Nat → Accumulator → List (Nat × List Nat × Nat)
  | [], _ => []
  | off :: rest, acc =>
    (specGroup max_value_size acc (groupAdress WIN32 pMsg off)
        (pMsg.data.getD (off + 2) 0) (pMsg.data.getD (off + 3) 0)).2 ++
      specFlushes max_value_size WIN32 pMsg rest
        (specGroup max_value_size acc (groupAdress WIN32 pMsg off)
          (pMsg.data.getD (off + 2) 0) (pMsg.data.getD (off + 3) 0)).1

/-- The offsets `0, 4, 8, ...` below `L`; there are `⌈L / 4⌉` of them. -/
def groupOffsets (L : Nat) : List Nat := (List.range ((L + 3) / 4)).map (fun k => 4 * k)

/-- The flush sequence of the specified algorithm for a message: the groups
at the offsets below the message length, starting from address 0, the empty
value and size 0. -/
def specDecode (max_value_size : Nat) (WIN32 : Bool) (pMsg : Message) :
    List (Nat × List Nat × Nat) :=
  specFlushes max_value_size WIN32 pMsg (groupOffsets pMsg.length)
    { current_address := 0, current_value_bytes := [], current_size := 0 }

/-- The loop state `st` holds what the accumulator `acc` of the specified
algorithm holds: same address, same size, and the first `size` bytes of the
value array are the accumulated value bytes. -/
def Corresponds {σ : Type} (H : Header) (st : LoopState σ) (acc : Accumulator) : Prop :=
  st.data.adress = acc.current_address ∧ st.size = acc.current_size ∧
    st.data.array.take st.size = acc.current_value_bytes ∧
    st.data.array.length = H.valueSize ∧ st.size ≤ H.valueSize

/-! ## Frame validation, modelled from the specification -/

/-- Modelled from the spec: the checksum of a frame, "the running
exclusive-or of `command`, `length`, and every byte of `data`" (§3), the
data bytes being `data[0 .. length)` (§4.1, §6).  The code that computes it
belongs to `NibeMessage`, which is not among the sources. -/
def checksum (m : Message) : Nat :=
  (List.range m.length).foldl (fun c k => c ^^^ m.data.getD k 0) (m.command ^^^ m.length)

/-- Modelled from the spec: a received frame, the message followed by its
trailing checksum byte (§6).  The receiving code of `NibeMessage` is not among
the sources. -/
structure Frame where
  msg : Message
  checksum : Nat
deriving DecidableEq, Repr

/-- Modelled from the spec: "a frame is VALID iff its transmitted checksum
equals the computed checksum" (§3).  The validation code of `NibeMessage` is
not among the sources. -/
def Frame.valid (f : Frame) : Bool := decide (f.checksum = NibeHeater.checksum f.msg)

/-- Modelled from the spec: what the Rx handler does with a received frame
(§2, §4.2, §7); the code is `NibeMessage::Loop`, not among the sources.  A
frame with a valid checksum is handed to the dispatcher `HandleMessage`, which
sends the reply itself (source lines 95, 129-152); a frame with a checksum
mismatch is answered with `NAK` on the handler it arrived on, is not
dispatched (`ret = false`) and leaves the value store as it is. -/
def receive {σ : Type} (H : Header) (WIN32 : Bool) (io : IoContainer σ) (s : σ)
    (txMsg : Message) (f : Frame) : Outcome σ :=
  if f.valid then HandleMessage H WIN32 io s txMsg f.msg
  else { ret := false, store := s, txMsg := txMsg, trace := [Effect.rxSend NAK] }

/-! ## Concrete data used to evaluate the functions -/

/-- A header with the command codes of the F1145/F1245 protocol (`READREQ`
is `0x69` and `WRITEREQ` is `0x6B` in the frames quoted at lines 168 and 194
of the source) and a value array of four bytes. -/
def f1145 : Header :=
  { DATABLOCK := 0x68, READDATA := 0x6a, READREQ := 0x69, WRITEREQ := 0x6b
    valueSize := 4
    labels_nodup := by decide
    valueSize_pos := by decide }

/-- A small value store: the state is the list of its entries, each an
element with its registered size; index `k` is the `k`-th entry.
`GetExpiredIoElement` answers index `0` when there is an entry and `-1`
otherwise, and `SetIoVal` keeps the entries. -/
def listStore : IoContainer (List (IoElement × Nat)) :=
  { GetIoElement := fun s idx => if 0 ≤ idx then (s.get? idx.toNat).map Prod.fst else none
    GetIoSize := fun s idx => ((s.get? idx.toNat).map Prod.snd).getD 0
    GetExpiredIoElement := fun s _ => (if s = [] then -1 else 0, s)
    SetIoVal := fun s _ _ _ => s }

/-- A message buffer of eight zero bytes. -/
def emptyMessage : Message := { nodeid := 0, command := 0, length := 0, data := List.replicate 8 0 }

/-- A store with one entry: identifier `0x6902`, value `CE FF 00 00`,
registered size 4. -/
def pendingStore : List (IoElement × Nat) :=
  [({ nIdentifer := 0x6902, ioVal := [0xCE, 0xFF, 0x00, 0x00] }, 4)]

/-- A data block of two groups with the addresses `00 10` and `00 20`. -/
def twoElements : Message :=
  { nodeid := 0x20, command := 0x68, length := 8
    data := [0x00, 0x10, 0xAA, 0xBB, 0x00, 0x20, 0xCC, 0xDD] }

/-- A data block of one group followed by a group with the sentinel
address. -/
def continuedElement : Message :=
  { nodeid := 0x20, command := 0x68, length := 8
    data := [0x00, 0x10, 0xAA, 0xBB, 0xFF, 0xFF, 0xCC, 0xDD] }

/-- A data block whose first group carries the sentinel address. -/
def sentinelFirst : Message :=
  { nodeid := 0x20, command := 0x68, length := 8
    data := [0xFF, 0xFF, 0x01, 0x02, 0x00, 0x10, 0xAA, 0xBB] }

/-- A frame with a command code that is none of the four of `f1145`. -/
def unknownCommand : Message :=
  { nodeid := 0x20, command := 0x6d, length := 0, data := List.replicate 8 0 }

/-- A data block with `length = 5`: one complete group and one byte of a
second group; the buffer holds further bytes behind the payload. -/
def partialGroup : Message :=
  { nodeid := 0x20, command := 0x68, length := 5
    data := [0x00, 0x10, 0xAA, 0xBB, 0x00, 0x20, 0xCC, 0xDD] }

/-- A data block with `length = 0`. -/
def emptyBlock : Message :=
  { nodeid := 0x20, command := 0x68, length := 0
    data := [0x00, 0x10, 0xAA, 0xBB, 0x00, 0x20, 0xCC, 0xDD] }

/-- A data block of three groups, the second and the third with the sentinel
address: with a value array of four bytes the third group finds it full. -/
def fullContinuation : Message :=
  { nodeid := 0x20, command := 0x68, length := 12
    data := [0x00, 0x10, 0xAA, 0xBB, 0xFF, 0xFF, 0xCC, 0xDD, 0xFF, 0xFF, 0xEE, 0x11] }

/-- A `READREQ` frame with its checksum. -/
def readToken : Frame :=
  { msg := { nodeid := 0x20, command := 0x69, length := 0, data := List.replicate 8 0 }
    checksum := 0x69 }

/-- The data block `twoElements` with its checksum. -/
def twoElementsFrame : Frame := { msg := twoElements, checksum := 0x50 }

/-- The data block `twoElements` with a wrong checksum. -/
def corruptedFrame : Frame := { msg := twoElements, checksum := 0x51 }

/-! ## The decoding loop -/

theorem loopBody_i {σ : Type} (H : Header) (WIN32 : Bool) (io : IoContainer σ)
    (pMsg : Message) (st : LoopState σ) :
    (loopBody H WIN32 io pMsg st).i = st.i + 4 := by
  simp only [loopBody]

theorem loopBody_trace {σ : Type} (H : Header) (WIN32 : Bool) (io : IoContainer σ)
    (pMsg : Message) (st : LoopState σ) :
    (loopBody H WIN32 io pMsg st).trace =
      if 0 < st.size ∧ groupAdress WIN32 pMsg st.i ≠ 0xffff then
        st.trace ++ [Effect.SetIoVal st.data.adress st.data.array st.size]
      else st.trace := by
  simp only [loopBody]
  split_ifs <;> rfl

theorem loopBody_adress {σ : Type} (H : Header) (WIN32 : Bool) (io : IoContainer σ)
    (pMsg : Message) (st : LoopState σ) :
    (loopBody H WIN32 io pMsg st).data.adress =
      if groupAdress WIN32 pMsg st.i ≠ 0xffff then groupAdress WIN32 pMsg st.i
      else st.data.adress := by
  simp only [loopBody]
  split_ifs <;> rfl

theorem decodeLoop_unfold {σ : Type} (H : Header) (WIN32 : Bool) (io : IoContainer σ)
    (pMsg : Message) (st : LoopState σ) :
    decodeLoop H WIN32 io pMsg st =
      if st.i + 4 < pMsg.length then
        decodeLoop H WIN32 io pMsg (loopBody H WIN32 io pMsg st)
      else loopBody H WIN32 io pMsg st := by
  rw [decodeLoop]
  simp only [loopBody_i, dite_eq_ite]

/-- A property of the loop state that every pass through the body keeps
holds when the loop is left. -/
theorem decodeLoop_invariant {σ : Type} (H : Header) (WIN32 : Bool) (io : IoContainer σ)
    (pMsg : Message) (P : LoopState σ → Prop)
    (step : ∀ st, P st → P (loopBody H WIN32 io pMsg st)) :
    ∀ st, P st → P (decodeLoop H WIN32 io pMsg st) := by
  intro st
  generalize hn : pMsg.length - st.i = n
  induction n using Nat.strong_induction_on generalizing st with
  | _ n ih =>
    intro hP
    rw [decodeLoop_unfold]
    split
    · apply ih (pMsg.length - (loopBody H WIN32 io pMsg st).i) _ _ rfl (step st hP)
      rw [loopBody_i]
      omega
    · exact step st hP

theorem loopBody_ackThenWrites {σ : Type} (H : Header) (WIN32 : Bool) (io : IoContainer σ)
    (pMsg : Message) (st : LoopState σ) (h : AckThenWrites st.trace) :
    AckThenWrites (loopBody H WIN32 io pMsg st).trace := by
  obtain ⟨ws, hws, hall⟩ := h
  rw [loopBody_trace]
  split
  · refine ⟨ws ++ [Effect.SetIoVal st.data.adress st.data.array st.size], by simp [hws], ?_⟩
    intro e he
    rcases List.mem_append.1 he with he | he
    · exact hall e he
    · exact ⟨_, _, _, List.mem_singleton.1 he⟩
  · exact ⟨ws, hws, hall⟩

theorem decodeLoop_ackThenWrites {σ : Type} (H : Header) (WIN32 : Bool) (io : IoContainer σ)
    (s : σ) (pMsg : Message) :
    AckThenWrites (decodeLoop H WIN32 io pMsg (loopInit H s)).trace :=
  decodeLoop_invariant H WIN32 io pMsg (fun st => AckThenWrites st.trace)
    (loopBody_ackThenWrites H WIN32 io pMsg) (loopInit H s) ⟨[], rfl, by simp⟩

theorem transmissions_of_writes (ws : List Effect)
    (h : ∀ e ∈ ws, ∃ a arr sz, e = Effect.SetIoVal a arr sz) : transmissions ws = [] := by
  induction ws with
  | nil => rfl
  | cons e t ih =>
    obtain ⟨a, arr, sz, rfl⟩ := h e (List.mem_cons_self _ _)
    simpa [transmissions] using ih (fun e he => h e (List.mem_cons_of_mem _ he))

theorem loopBody_noSentinel {σ : Type} (H : Header) (WIN32 : Bool) (io : IoContainer σ)
    (pMsg : Message) (st : LoopState σ) (h : NoSentinel st) :
    NoSentinel (loopBody H WIN32 io pMsg st) := by
  obtain ⟨hadr, htr⟩ := h
  refine ⟨?_, ?_⟩
  · rw [loopBody_adress]
    split
    · assumption
    · exact hadr
  · intro a arr sz hmem
    rw [loopBody_trace] at hmem
    split at hmem
    · rcases List.mem_append.1 hmem with hmem | hmem
      · exact htr a arr sz hmem
      · simp only [List.mem_singleton, Effect.SetIoVal.injEq] at hmem
        rw [hmem.1]
        exact hadr
    · exact htr a arr sz hmem

theorem decodeLoop_noSentinel {σ : Type} (H : Header) (WIN32 : Bool) (io : IoContainer σ)
    (s : σ) (pMsg : Message) :
    NoSentinel (decodeLoop H WIN32 io pMsg (loopInit H s)) :=
  decodeLoop_invariant H WIN32 io pMsg NoSentinel
    (loopBody_noSentinel H WIN32 io pMsg) (loopInit H s)
    ⟨by simp [loopInit], by simp [loopInit]⟩

theorem decodeLoop_once {σ : Type} (H : Header) (WIN32 : Bool) (io : IoContainer σ)
    (pMsg : Message) (st : LoopState σ) (h : ¬ st.i + 4 < pMsg.length) :
    decodeLoop H WIN32 io pMsg st = loopBody H WIN32 io pMsg st := by
  rw [decodeLoop_unfold, if_neg h]

theorem decodeLoop_twice {σ : Type} (H : Header) (WIN32 : Bool) (io : IoContainer σ)
    (pMsg : Message) (st : LoopState σ) (h1 : st.i + 4 < pMsg.length)
    (h2 : ¬ st.i + 8 < pMsg.length) :
    decodeLoop H WIN32 io pMsg st =
      loopBody H WIN32 io pMsg (loopBody H WIN32 io pMsg st) := by
  rw [decodeLoop_unfold, if_pos h1, decodeLoop_once]
  rw [loopBody_i]
  omega

theorem writes_append (t u : List Effect) : writes (t ++ u) = writes t ++ writes u := by
  induction t with
  | nil => rfl
  | cons e t ih => cases e <;> simp [writes, ih]

theorem take_two_set (arr : List Nat) (x y : Nat) (h : 2 ≤ arr.length) :
    ((arr.set 0 x).set 1 y).take 2 = [x, y] := by
  match arr, h with
  | _ :: _ :: _, _ => rfl

/-- The body on the first group of an element when nothing is accumulated:
no write, the group is taken up. -/
theorem loopBody_first {σ : Type} (H : Header) (WIN32 : Bool) (io : IoContainer σ)
    (pMsg : Message) (st : LoopState σ) (hs : st.size = 0)
    (ha : groupAdress WIN32 pMsg st.i ≠ 0xffff) (hv : 2 ≤ H.valueSize) :
    loopBody H WIN32 io pMsg st =
      { i := st.i + 4, size := 2
        data := { adress := groupAdress WIN32 pMsg st.i
                  array := (st.data.array.set 0 (pMsg.data.getD (st.i + 2) 0)).set 1
                    (pMsg.data.getD (st.i + 3) 0) }
        store := st.store, trace := st.trace } := by
  have hv1 : 0 < H.valueSize - 1 := by omega
  simp [loopBody, hs, ha, hv1]

/-- The body on a group with a new address while an element is accumulated:
the accumulated element is written, the group is taken up. -/
theorem loopBody_flush {σ : Type} (H : Header) (WIN32 : Bool) (io : IoContainer σ)
    (pMsg : Message) (st : LoopState σ) (hs : 0 < st.size)
    (ha : groupAdress WIN32 pMsg st.i ≠ 0xffff) (hv : 2 ≤ H.valueSize) :
    loopBody H WIN32 io pMsg st =
      { i := st.i + 4, size := 2
        data := { adress := groupAdress WIN32 pMsg st.i
                  array := (st.data.array.set 0 (pMsg.data.getD (st.i + 2) 0)).set 1
                    (pMsg.data.getD (st.i + 3) 0) }
        store := io.SetIoVal st.store st.data.adress st.data.array st.size
        trace := st.trace ++ [Effect.SetIoVal st.data.adress st.data.array st.size] } := by
  have hv1 : 0 < H.valueSize - 1 := by omega
  simp [loopBody, hs, ha, hv1]

theorem loopBody_accumulated {σ : Type} (H : Header) (WIN32 : Bool) (io : IoContainer σ)
    (pMsg : Message) (j : Nat) (st : LoopState σ) (hv : 2 ≤ H.valueSize)
    (ha : groupAdress WIN32 pMsg (4 * j) ≠ 0xffff)
    (h : Accumulated H WIN32 pMsg j st) :
    Accumulated H WIN32 pMsg (j + 1) (loopBody H WIN32 io pMsg st) := by
  obtain ⟨hi, hlen, hw, h0, h1⟩ := h
  rw [← hi] at ha
  rcases Nat.eq_zero_or_pos j with hj | hj
  · subst hj
    rw [loopBody_first H WIN32 io pMsg st (h0 rfl) ha hv]
    refine ⟨by simp [hi], by simp [hlen], by simpa using hw, by simp, fun _ => ⟨rfl, ?_⟩⟩
    simp only [groupElement, Nat.add_sub_cancel, hi, Prod.mk.injEq, and_true]
    exact ⟨trivial, take_two_set _ _ _ (by omega)⟩
  · obtain ⟨hs, he⟩ := h1 hj
    rw [loopBody_flush H WIN32 io pMsg st (by omega) ha hv]
    refine ⟨by simp [hi]; omega, by simp [hlen], ?_, by simp, fun _ => ⟨rfl, ?_⟩⟩
    · simp only [writes_append, hw, writes, hs, he, Nat.add_sub_cancel]
      obtain ⟨k, rfl⟩ : ∃ k, j = k + 1 := ⟨j - 1, by omega⟩
      simp [List.range_succ]
    · simp only [groupElement, Nat.add_sub_cancel, hi, Prod.mk.injEq, and_true]
      exact ⟨trivial, take_two_set _ _ _ (by omega)⟩

theorem decodeLoop_accumulated {σ : Type} (H : Header) (WIN32 : Bool) (io : IoContainer σ)
    (pMsg : Message) (n : Nat) (hlen : pMsg.length = 4 * n) (hv : 2 ≤ H.valueSize)
    (hadr : ∀ j < n, groupAdress WIN32 pMsg (4 * j) ≠ 0xffff) :
    ∀ (m j : Nat) (st : LoopState σ), j + m + 1 = n → Accumulated H WIN32 pMsg j st →
      Accumulated H WIN32 pMsg n (decodeLoop H WIN32 io pMsg st) := by
  intro m
  induction m with
  | zero =>
    intro j st hj h
    rw [decodeLoop_unfold, if_neg (by rw [h.1, hlen]; omega)]
    have := loopBody_accumulated H WIN32 io pMsg j st hv (hadr j (by omega)) h
    rwa [show j + 1 = n by omega] at this
  | succ m ih =>
    intro j st hj h
    rw [decodeLoop_unfold, if_pos (by rw [h.1, hlen]; omega)]
    exact ih (j + 1) _ (by omega)
      (loopBody_accumulated H WIN32 io pMsg j st hv (hadr j (by omega)) h)

/-! ## The data block decoder in `HandleMessage` -/

/-- C1, what the code does: for a `DATABLOCK` or `READDATA` message of
`n ≥ 1` complete groups, none with the sentinel address, `HandleMessage`
writes the elements of the first `n - 1` groups, in payload order, and
nothing else.  The element of the last group is accumulated and never handed
to `SetIoVal`: no write follows the loop. -/
theorem HandleMessage_drops_last_element {σ : Type} (H : Header) (WIN32 : Bool)
    (io : IoContainer σ) (s : σ) (txMsg pMsg : Message) (n : Nat)
    (hc : pMsg.command = H.DATABLOCK ∨ pMsg.command = H.READDATA)
    (hn : 1 ≤ n) (hlen : pMsg.length = 4 * n) (hv : 2 ≤ H.valueSize)
    (hadr : ∀ j < n, groupAdress WIN32 pMsg (4 * j) ≠ 0xffff) :
    writes (HandleMessage H WIN32 io s txMsg pMsg).trace =
      (List.range (n - 1)).map (groupElement WIN32 pMsg) := by
  simp only [HandleMessage, hc, if_true]
  have h0 : Accumulated H WIN32 pMsg 0 (loopInit H s) :=
    ⟨rfl, by simp [loopInit], by simp [loopInit, writes], fun _ => rfl, fun h => by omega⟩
  exact (decodeLoop_accumulated H WIN32 io pMsg n hlen hv hadr (n - 1) 0 _ (by omega) h0).2.2.1

/-- The data block `twoElements` in both variants: one write, for the first
group only. -/
theorem HandleMessage_drops_last_element_witness :
    writes (HandleMessage f1145 true listStore [] emptyMessage twoElements).trace =
        [(0x0010, [0xAA, 0xBB], 2)] ∧
      writes (HandleMessage f1145 false listStore [] emptyMessage twoElements).trace =
        [(0x1000, [0xAA, 0xBB], 2)] :=
  ⟨HandleMessage_drops_last_element f1145 true listStore [] emptyMessage twoElements 2
      (Or.inl (by decide)) (by decide) (by decide) (by decide) (by decide),
   HandleMessage_drops_last_element f1145 false listStore [] emptyMessage twoElements 2
      (Or.inl (by decide)) (by decide) (by decide) (by decide) (by decide)⟩

/-- C2, what the code does: for a `DATABLOCK` or `READDATA` message of two
groups whose second group carries the sentinel address, `HandleMessage`
sends the `ACK` and makes no `SetIoVal` call at all: the four accumulated
value bytes are never written. -/
theorem HandleMessage_drops_continued_element {σ : Type} (H : Header) (WIN32 : Bool)
    (io : IoContainer σ) (s : σ) (txMsg pMsg : Message)
    (hc : pMsg.command = H.DATABLOCK ∨ pMsg.command = H.READDATA)
    (hlen : pMsg.length = 8) (hsen : groupAdress WIN32 pMsg 4 = 0xffff) :
    (HandleMessage H WIN32 io s txMsg pMsg).trace = [Effect.rxSend ACK] ∧
      writes (HandleMessage H WIN32 io s txMsg pMsg).trace = [] := by
  have ht : (HandleMessage H WIN32 io s txMsg pMsg).trace = [Effect.rxSend ACK] := by
    simp only [HandleMessage, hc, if_true]
    rw [decodeLoop_twice H WIN32 io pMsg (loopInit H s) (by rw [hlen]; simp [loopInit])
      (by rw [hlen]; simp [loopInit])]
    rw [loopBody_trace, loopBody_i, loopBody_trace]
    have h4 : (loopInit H s).i + 4 = 4 := rfl
    rw [h4, hsen]
    simp [loopInit]
  rw [ht]
  exact ⟨rfl, rfl⟩

/-- The data block `continuedElement`: the acknowledge and no write. -/
theorem HandleMessage_drops_continued_element_witness :
    groupAdress true continuedElement 0 = 0x0010 ∧
      groupAdress true continuedElement 4 = 0xffff ∧
      (HandleMessage f1145 true listStore [] emptyMessage continuedElement).trace =
        [Effect.rxSend ACK] :=
  ⟨by decide, by decide,
   (HandleMessage_drops_continued_element f1145 true listStore [] emptyMessage
      continuedElement (Or.inl (by decide)) (by decide) (by decide)).1⟩

/-! ## The dispatcher -/

/-- C5: for every message and every state of the value store, one call of
`HandleMessage` makes exactly one transmission (`Send` or `SendMessage`), and
that transmission is an `ACK` byte or the request frame in the Tx buffer. -/
theorem HandleMessage_one_transmission {σ : Type} (H : Header) (WIN32 : Bool)
    (io : IoContainer σ) (s : σ) (txMsg pMsg : Message) :
    ∃ t, transmissions (HandleMessage H WIN32 io s txMsg pMsg).trace = [t] ∧
      (t = Effect.rxSend ACK ∨ t = Effect.txSend ACK ∨
        t = Effect.txSendMessage (HandleMessage H WIN32 io s txMsg pMsg).txMsg) := by
  simp only [HandleMessage]
  split_ifs
  · obtain ⟨ws, hws, hall⟩ := decodeLoop_ackThenWrites H WIN32 io s pMsg
    refine ⟨Effect.rxSend ACK, ?_, Or.inl rfl⟩
    simp only [hws, transmissions, transmissions_of_writes ws hall]
  · exact ⟨_, rfl, Or.inr (Or.inr rfl)⟩
  · exact ⟨_, rfl, Or.inr (Or.inl rfl)⟩
  · exact ⟨_, rfl, Or.inr (Or.inr rfl)⟩
  · exact ⟨_, rfl, Or.inr (Or.inl rfl)⟩
  · exact ⟨_, rfl, Or.inr (Or.inl rfl)⟩

/-- C6: a message whose command is none of `DATABLOCK`, `READDATA`, `READREQ`,
`WRITEREQ` is answered with exactly one `ACK`, `HandleMessage` returns
`false`, and the value store is not written: no `SetIoVal` call is made and
the store is left as it was. -/
theorem HandleMessage_unknown_command {σ : Type} (H : Header) (WIN32 : Bool)
    (io : IoContainer σ) (s : σ) (txMsg pMsg : Message)
    (h1 : pMsg.command ≠ H.DATABLOCK) (h2 : pMsg.command ≠ H.READDATA)
    (h3 : pMsg.command ≠ H.READREQ) (h4 : pMsg.command ≠ H.WRITEREQ) :
    (HandleMessage H WIN32 io s txMsg pMsg).trace = [Effect.txSend ACK] ∧
      (HandleMessage H WIN32 io s txMsg pMsg).ret = false ∧
      writes (HandleMessage H WIN32 io s txMsg pMsg).trace = [] ∧
      (HandleMessage H WIN32 io s txMsg pMsg).store = s := by
  have hd : ¬ (pMsg.command = H.DATABLOCK ∨ pMsg.command = H.READDATA) := by
    rintro (h | h)
    · exact h1 h
    · exact h2 h
  have hm : HandleMessage H WIN32 io s txMsg pMsg =
      { ret := false, store := s, txMsg := txMsg, trace := [Effect.txSend ACK] } := by
    simp only [HandleMessage, if_neg hd, if_neg h3, if_neg h4]
  rw [hm]
  exact ⟨rfl, rfl, rfl, rfl⟩

/-- The frame `unknownCommand`: one `ACK`, not handled. -/
theorem HandleMessage_unknown_command_witness :
    (HandleMessage f1145 false listStore [] emptyMessage
        unknownCommand).trace
        = [Effect.txSend ACK] ∧
      (HandleMessage f1145 false listStore [] emptyMessage
        unknownCommand).ret
        = false :=
  have h := HandleMessage_unknown_command f1145 false listStore [] emptyMessage
    unknownCommand
    (by decide) (by decide) (by decide) (by decide)
  ⟨h.1, h.2.1⟩

theorem Header.labels_ne (H : Header) :
    H.READREQ ≠ H.DATABLOCK ∧ H.READREQ ≠ H.READDATA ∧
      H.WRITEREQ ≠ H.DATABLOCK ∧ H.WRITEREQ ≠ H.READDATA ∧ H.WRITEREQ ≠ H.READREQ := by
  have h := H.labels_nodup
  simp only [List.nodup_cons, List.mem_cons, List.mem_singleton, not_or, List.not_mem_nil,
    not_false_eq_true, List.nodup_nil, and_true] at h
  obtain ⟨⟨_, h13, h14⟩, ⟨h23, h24⟩, h34⟩ := h
  exact ⟨Ne.symm h13, Ne.symm h23, Ne.symm h14, Ne.symm h24, Ne.symm h34⟩

/-- C7: a `READREQ` message (respectively a `WRITEREQ` message) handled while
`GetIoElement` has no element at the index `GetExpiredIoElement(R)`
(respectively `GetExpiredIoElement(RW)`) returns is answered with a single
`ACK` and nothing else: `SendMessage` is not called, no request frame is
sent. -/
theorem HandleMessage_no_pending_entry {σ : Type} (H : Header) (WIN32 : Bool)
    (io : IoContainer σ) (s : σ) (txMsg pMsg : Message) :
    (pMsg.command = H.READREQ →
      io.GetIoElement (io.GetExpiredIoElement s IoType.R).2
        (io.GetExpiredIoElement s IoType.R).1 = none →
      (HandleMessage H WIN32 io s txMsg pMsg).trace = [Effect.txSend ACK]) ∧
    (pMsg.command = H.WRITEREQ →
      io.GetIoElement (io.GetExpiredIoElement s IoType.RW).2
        (io.GetExpiredIoElement s IoType.RW).1 = none →
      (HandleMessage H WIN32 io s txMsg pMsg).trace = [Effect.txSend ACK]) := by
  constructor
  · intro hc habs
    simp [HandleMessage, hc, H.labels_ne.1, H.labels_ne.2.1, ReadRequest, habs]
  · intro hc habs
    simp [HandleMessage, hc, H.labels_ne.2.2.1, H.labels_ne.2.2.2.1, H.labels_ne.2.2.2.2,
      WriteRequest, habs]

/-- A `READREQ` and a `WRITEREQ` frame against the empty store. -/
theorem HandleMessage_no_pending_entry_witness :
    (HandleMessage f1145 false listStore [] emptyMessage
        { nodeid := 0x20, command := 0x69, length := 0, data := List.replicate 8 0 }).trace
        = [Effect.txSend ACK] ∧
      (HandleMessage f1145 false listStore [] emptyMessage
        { nodeid := 0x20, command := 0x6b, length := 0, data := List.replicate 8 0 }).trace
        = [Effect.txSend ACK] :=
  ⟨(HandleMessage_no_pending_entry f1145 false listStore [] emptyMessage
      { nodeid := 0x20, command := 0x69, length := 0, data := List.replicate 8 0 }).1
      (by decide) (by decide),
   (HandleMessage_no_pending_entry f1145 false listStore [] emptyMessage
      { nodeid := 0x20, command := 0x6b, length := 0, data := List.replicate 8 0 }).2
      (by decide) (by decide)⟩

/-- C9: for a `DATABLOCK` or `READDATA` message the trace of `HandleMessage`
starts with the `ACK` sent over the Rx handler, and everything after it is a
value-store write: the acknowledge precedes every `SetIoVal`. -/
theorem HandleMessage_ack_before_writes {σ : Type} (H : Header) (WIN32 : Bool)
    (io : IoContainer σ) (s : σ) (txMsg pMsg : Message)
    (h : pMsg.command = H.DATABLOCK ∨ pMsg.command = H.READDATA) :
    ∃ ws, (HandleMessage H WIN32 io s txMsg pMsg).trace = Effect.rxSend ACK :: ws ∧
      ∀ e ∈ ws, ∃ a arr sz, e = Effect.SetIoVal a arr sz := by
  simp only [HandleMessage, h, if_true]
  exact decodeLoop_ackThenWrites H WIN32 io s pMsg

/-- The data block `twoElements`: the acknowledge comes first. -/
theorem HandleMessage_ack_before_writes_witness :
    (twoElements.command = f1145.DATABLOCK ∨ twoElements.command = f1145.READDATA) ∧
      ∃ ws, (HandleMessage f1145 false listStore [] emptyMessage twoElements).trace =
          Effect.rxSend ACK :: ws ∧
        ∀ e ∈ ws, ∃ a arr sz, e = Effect.SetIoVal a arr sz :=
  ⟨Or.inl (by decide),
   HandleMessage_ack_before_writes f1145 false listStore [] emptyMessage twoElements
      (Or.inl (by decide))⟩

/-- C10: for a `DATABLOCK` or `READDATA` message no `SetIoVal` call made by
`HandleMessage` carries the address `0xFFFF`. -/
theorem HandleMessage_no_sentinel_write {σ : Type} (H : Header) (WIN32 : Bool)
    (io : IoContainer σ) (s : σ) (txMsg pMsg : Message)
    (h : pMsg.command = H.DATABLOCK ∨ pMsg.command = H.READDATA) :
    ∀ a arr sz, Effect.SetIoVal a arr sz ∈ (HandleMessage H WIN32 io s txMsg pMsg).trace →
      a ≠ 0xffff := by
  simp only [HandleMessage, h, if_true]
  exact (decodeLoop_noSentinel H WIN32 io s pMsg).2

/-- The trace of the data block `sentinelFirst`: its first group is written
under the initial address 0. -/
theorem HandleMessage_sentinelFirst_trace :
    (HandleMessage f1145 false listStore [] emptyMessage sentinelFirst).trace =
      [Effect.rxSend ACK, Effect.SetIoVal 0 [0x01, 0x02, 0, 0] 2] := by
  simp only [HandleMessage]
  rw [if_pos (by decide), decodeLoop_twice _ _ _ _ _ (by decide) (by decide)]
  decide

/-- The data block `sentinelFirst`: the one write has address 0. -/
theorem HandleMessage_no_sentinel_write_witness :
    Effect.SetIoVal 0 [0x01, 0x02, 0, 0] 2 ∈
        (HandleMessage f1145 false listStore [] emptyMessage sentinelFirst).trace ∧
      0 ≠ 0xffff :=
  have hmem : Effect.SetIoVal 0 [0x01, 0x02, 0, 0] 2 ∈
      (HandleMessage f1145 false listStore [] emptyMessage sentinelFirst).trace := by
    rw [HandleMessage_sentinelFirst_trace]
    decide
  ⟨hmem,
   HandleMessage_no_sentinel_write f1145 false listStore [] emptyMessage sentinelFirst
      (Or.inl (by decide)) 0 [0x01, 0x02, 0, 0] 2 hmem⟩

/-! ## The request builders -/

/-- C8: with a message buffer at hand, `ReadRequest` returns `false` exactly
when the value store has no element at `idx`, and so does `WriteRequest`;
when either returns `false` the message buffer is what it was. -/
theorem request_false_iff_absent {σ : Type} (H : Header) (WIN32 : Bool)
    (io : IoContainer σ) (s : σ) (idx : Int) (m : Message) :
    ((ReadRequest H WIN32 io s idx (some m)).1 = false ↔ io.GetIoElement s idx = none) ∧
    ((WriteRequest H WIN32 io s idx m).1 = false ↔ io.GetIoElement s idx = none) ∧
    ((ReadRequest H WIN32 io s idx (some m)).1 = false →
      (ReadRequest H WIN32 io s idx (some m)).2 = some m) ∧
    ((WriteRequest H WIN32 io s idx m).1 = false →
      (WriteRequest H WIN32 io s idx m).2 = m) := by
  unfold ReadRequest WriteRequest
  cases hg : io.GetIoElement s idx <;> simp

/-- Both builders against the empty store leave `emptyMessage` as it is. -/
theorem request_false_iff_absent_witness :
    (ReadRequest f1145 false listStore [] 0 (some emptyMessage)).2 = some emptyMessage ∧
      (WriteRequest f1145 false listStore [] 0 emptyMessage).2 = emptyMessage :=
  ⟨(request_false_iff_absent f1145 false listStore [] 0 emptyMessage).2.2.1 (by decide),
   (request_false_iff_absent f1145 false listStore [] 0 emptyMessage).2.2.2 (by decide)⟩

/-! ### Buffers -/

theorem getD_set_self (l : List Nat) (k v : Nat) (h : k < l.length) :
    (l.set k v).getD k 0 = v := by
  simp [List.getD_eq_getElem?_getD, List.getElem?_set, h]

theorem getD_set_other (l : List Nat) (k j v : Nat) (h : k ≠ j) :
    (l.set k v).getD j 0 = l.getD j 0 := by
  simp [List.getD_eq_getElem?_getD, List.getElem?_set, h]

theorem memcpy_length (dst : List Nat) (off : Nat) (src : List Nat) (n : Nat) :
    (memcpy dst off src n).length = dst.length := by
  induction n with
  | zero => rfl
  | succ n ih => simp [memcpy, ih]

theorem memcpy_getD_below (dst : List Nat) (off : Nat) (src : List Nat) (n j : Nat)
    (h : j < off) : (memcpy dst off src n).getD j 0 = dst.getD j 0 := by
  induction n with
  | zero => rfl
  | succ n ih =>
    rw [memcpy, getD_set_other _ _ _ _ (by omega), ih]

theorem memcpy_getD_copied (dst : List Nat) (off : Nat) (src : List Nat) (n k : Nat)
    (hk : k < n) (hcap : off + n ≤ dst.length) :
    (memcpy dst off src n).getD (off + k) 0 = src.getD k 0 := by
  induction n with
  | zero => omega
  | succ n ih =>
    rw [memcpy]
    by_cases hkn : k = n
    · subst hkn
      rw [getD_set_self]
      rw [memcpy_length]
      omega
    · rw [getD_set_other _ _ _ _ (by omega)]
      exact ih (by omega) (by omega)

theorem identifier_low (n : Nat) : (n &&& 0x00ff) % 256 = n &&& 0xff := by
  apply Nat.mod_eq_of_lt
  exact Nat.lt_of_le_of_lt Nat.and_le_right (by decide)

theorem identifier_high (n : Nat) (h : n < 65536) : (n >>> 8) % 256 = n >>> 8 := by
  apply Nat.mod_eq_of_lt
  rw [Nat.shiftRight_eq_div_pow]
  omega

theorem storeIdentifier_length (WIN32 : Bool) (n : Nat) (data : List Nat) :
    (storeIdentifier WIN32 n data).length = data.length := by
  unfold storeIdentifier
  split <;> simp

theorem storeIdentifier_low (WIN32 : Bool) (n : Nat) (data : List Nat)
    (hcap : 2 ≤ data.length) :
    (storeIdentifier WIN32 n data).getD (if WIN32 then 1 else 0) 0 = n &&& 0xff := by
  unfold storeIdentifier
  cases WIN32
  · simp only [Bool.false_eq_true, if_false]
    rw [getD_set_other _ _ _ _ (by omega), getD_set_self _ _ _ (by omega), identifier_low]
  · simp only [if_true]
    rw [getD_set_other _ _ _ _ (by omega), getD_set_self _ _ _ (by omega), identifier_low]

theorem storeIdentifier_high (WIN32 : Bool) (n : Nat) (data : List Nat)
    (hn : n < 65536) (hcap : 2 ≤ data.length) :
    (storeIdentifier WIN32 n data).getD (if WIN32 then 0 else 1) 0 = n >>> 8 := by
  unfold storeIdentifier
  cases WIN32
  · simp only [Bool.false_eq_true, if_false]
    rw [getD_set_self _ _ _ (by simp; omega), identifier_high n hn]
  · simp only [if_true]
    rw [getD_set_self _ _ _ (by simp; omega), identifier_high n hn]

/-! ### `ReadRequest` -/

/-- C3, where the claim fails: built with `WIN32`, `ReadRequest` for the
identifier `0x6902` stores `69 02`, so `data[0]` is not `id & 0xFF`. -/
theorem ReadRequest_WIN32_high_byte_first :
    listStore.GetIoElement pendingStore 0 =
        some { nIdentifer := 0x6902, ioVal := [0xCE, 0xFF, 0x00, 0x00] } ∧
      ReadRequest f1145 true listStore pendingStore 0 (some emptyMessage) =
        (true, some { nodeid := 0xc0, command := 0x69, length := 2
                      data := [0x69, 0x02, 0, 0, 0, 0, 0, 0] }) ∧
      ¬ ∃ m, ReadRequest f1145 true listStore pendingStore 0 (some emptyMessage) =
            (true, some m) ∧
          m.nodeid = 0xc0 ∧ m.command = f1145.READREQ ∧ m.length = 2 ∧
          m.data.getD 0 0 = 0x6902 &&& 0xff ∧ m.data.getD 1 0 = 0x6902 >>> 8 := by
  refine ⟨by decide, by decide, ?_⟩
  rintro ⟨m, hm, -, -, -, h0, -⟩
  have he : ReadRequest f1145 true listStore pendingStore 0 (some emptyMessage) =
      (true, some { nodeid := 0xc0, command := 0x69, length := 2
                    data := [0x69, 0x02, 0, 0, 0, 0, 0, 0] }) := by decide
  rw [he] at hm
  simp only [Prod.mk.injEq, Option.some.injEq, true_and] at hm
  subst hm
  revert h0
  decide

/-- C3 as amended: when the value store holds an element with a 16-bit
identifier `id` at `idx` and the message buffer has room for two data bytes,
`ReadRequest` returns `true` and leaves the message with `nodeid = 0xC0`,
`command = READREQ`, `length = 2` and the two bytes of `id` in `data[0]`,
`data[1]`: low byte first when built without `WIN32`, high byte first when
built with `WIN32`. -/
theorem ReadRequest_frame {σ : Type} (H : Header) (WIN32 : Bool) (io : IoContainer σ)
    (s : σ) (idx : Int) (e : IoElement) (m : Message)
    (he : io.GetIoElement s idx = some e) (hid : e.nIdentifer < 65536)
    (hcap : 2 ≤ m.data.length) :
    ∃ r, ReadRequest H WIN32 io s idx (some m) = (true, some r) ∧
      r.nodeid = 0xc0 ∧ r.command = H.READREQ ∧ r.length = 2 ∧
      r.data.getD (if WIN32 then 1 else 0) 0 = e.nIdentifer &&& 0xff ∧
      r.data.getD (if WIN32 then 0 else 1) 0 = e.nIdentifer >>> 8 := by
  refine ⟨{ nodeid := 0xc0, command := H.READREQ, length := 2,
            data := storeIdentifier WIN32 e.nIdentifer m.data },
    by simp only [ReadRequest, he], rfl, rfl, rfl, ?_, ?_⟩
  · exact storeIdentifier_low WIN32 e.nIdentifer m.data hcap
  · exact storeIdentifier_high WIN32 e.nIdentifer m.data hid hcap

/-- The identifier `0x6902` built without `WIN32`: data bytes `02 69`. -/
theorem ReadRequest_frame_witness :
    ∃ r, ReadRequest f1145 false listStore pendingStore 0 (some emptyMessage) =
        (true, some r) ∧
      r.nodeid = 0xc0 ∧ r.command = 0x69 ∧ r.length = 2 ∧
      r.data.getD 0 0 = 0x6902 &&& 0xff ∧ r.data.getD 1 0 = 0x6902 >>> 8 :=
  ReadRequest_frame f1145 false listStore pendingStore 0
    { nIdentifer := 0x6902, ioVal := [0xCE, 0xFF, 0x00, 0x00] } emptyMessage
    (by decide) (by decide) (by decide)

/-! ### `WriteRequest` -/

/-- C4, where the claim fails: built with `WIN32`, `WriteRequest` for the
identifier `0x6902` stores `69 02 CE FF 00 00`, so `data[0]` is not
`id & 0xFF`. -/
theorem WriteRequest_WIN32_high_byte_first :
    listStore.GetIoElement pendingStore 0 =
        some { nIdentifer := 0x6902, ioVal := [0xCE, 0xFF, 0x00, 0x00] } ∧
      listStore.GetIoSize pendingStore 0 = 4 ∧
      WriteRequest f1145 true listStore pendingStore 0 emptyMessage =
        (true, { nodeid := 0xc0, command := 0x6b, length := 6
                 data := [0x69, 0x02, 0xCE, 0xFF, 0, 0, 0, 0] }) ∧
      ¬ ((WriteRequest f1145 true listStore pendingStore 0 emptyMessage).2.data.getD 0 0 =
            0x6902 &&& 0xff ∧
          (WriteRequest f1145 true listStore pendingStore 0 emptyMessage).2.data.getD 1 0 =
            0x6902 >>> 8) := by
  decide

/-- C4 as amended: when the value store holds an element with a 16-bit
identifier `id` at `idx`, with registered size `s`, and `2 + s` fits the
message buffer and the one-byte length field, `WriteRequest` returns `true`
and leaves the message with `nodeid = 0xC0`, `command = WRITEREQ`,
`length = 2 + s`, the two bytes of `id` in `data[0]`, `data[1]` (low byte
first when built without `WIN32`, high byte first when built with `WIN32`)
and the first `s` bytes of the stored value in `data[2 .. 2 + s)`. -/
theorem WriteRequest_frame {σ : Type} (H : Header) (WIN32 : Bool) (io : IoContainer σ)
    (s : σ) (idx : Int) (e : IoElement) (m : Message)
    (he : io.GetIoElement s idx = some e) (hid : e.nIdentifer < 65536)
    (hcap : 2 + io.GetIoSize s idx ≤ m.data.length)
    (hlen : 2 + io.GetIoSize s idx < 256) :
    ∃ r, WriteRequest H WIN32 io s idx m = (true, r) ∧
      r.nodeid = 0xc0 ∧ r.command = H.WRITEREQ ∧ r.length = 2 + io.GetIoSize s idx ∧
      r.data.getD (if WIN32 then 1 else 0) 0 = e.nIdentifer &&& 0xff ∧
      r.data.getD (if WIN32 then 0 else 1) 0 = e.nIdentifer >>> 8 ∧
      ∀ k < io.GetIoSize s idx, r.data.getD (2 + k) 0 = e.ioVal.getD k 0 := by
  refine ⟨{ nodeid := 0xc0, command := H.WRITEREQ, length := (2 + io.GetIoSize s idx) % 256,
            data := memcpy (storeIdentifier WIN32 e.nIdentifer m.data) 2 e.ioVal
              (io.GetIoSize s idx) },
    by simp only [WriteRequest, he], rfl, rfl, Nat.mod_eq_of_lt hlen, ?_, ?_, ?_⟩
  · rw [memcpy_getD_below _ _ _ _ _ (by split <;> omega)]
    exact storeIdentifier_low WIN32 e.nIdentifer m.data (by omega)
  · rw [memcpy_getD_below _ _ _ _ _ (by split <;> omega)]
    exact storeIdentifier_high WIN32 e.nIdentifer m.data hid (by omega)
  · intro k hk
    exact memcpy_getD_copied _ _ _ _ _ hk (by rw [storeIdentifier_length]; exact hcap)

/-- The identifier `0x6902` with value `CE FF 00 00` built without `WIN32`:
data bytes `02 69 CE FF 00 00`, length 6. -/
theorem WriteRequest_frame_witness :
    ∃ r, WriteRequest f1145 false listStore pendingStore 0 emptyMessage = (true, r) ∧
      r.nodeid = 0xc0 ∧ r.command = 0x6b ∧ r.length = 6 ∧
      r.data.getD 0 0 = 0x6902 &&& 0xff ∧ r.data.getD 1 0 = 0x6902 >>> 8 ∧
      ∀ k < 4, r.data.getD (2 + k) 0 = [0xCE, 0xFF, 0x00, 0x00].getD k 0 :=
  WriteRequest_frame f1145 false listStore pendingStore 0
    { nIdentifer := 0x6902, ioVal := [0xCE, 0xFF, 0x00, 0x00] } emptyMessage
    (by decide) (by decide) (by decide) (by decide)

/-! ## Byte order -/

theorem word_eq (h l : Nat) : word h l = (h % 256) * 256 + l % 256 := by
  unfold word
  rw [Nat.shiftLeft_eq]
  have hl : l % 256 < 2 ^ 8 := Nat.mod_lt _ (by decide)
  have := Nat.mul_add_lt_is_or hl (h % 256)
  rw [Nat.mul_comm] at this
  exact this.symm

theorem word_low (h l : Nat) : word h l % 256 = l % 256 := by
  rw [word_eq]
  omega

theorem word_high (h l : Nat) : word h l / 256 = h % 256 := by
  rw [word_eq]
  omega

theorem identifier_low_mod (n : Nat) : n &&& 0xff = n % 256 :=
  Nat.and_pow_two_sub_one_eq_mod n 8

theorem word_identifier (n : Nat) (hn : n < 65536) : word (n >>> 8) (n &&& 0xff) = n := by
  rw [word_eq, identifier_low_mod, Nat.shiftRight_eq_div_pow]
  omega

/-- The data bytes 0 and 1 after `storeIdentifier`, for both variants. -/
theorem storeIdentifier_bytes (n : Nat) (data : List Nat) (hn : n < 65536)
    (hcap : 2 ≤ data.length) :
    (storeIdentifier false n data).getD 0 0 = n &&& 0xff ∧
      (storeIdentifier false n data).getD 1 0 = n >>> 8 ∧
      (storeIdentifier true n data).getD 0 0 = n >>> 8 ∧
      (storeIdentifier true n data).getD 1 0 = n &&& 0xff :=
  ⟨storeIdentifier_low false n data hcap, storeIdentifier_high false n data hn hcap,
   storeIdentifier_high true n data hn hcap, storeIdentifier_low true n data hcap⟩

/-- Decoding the two bytes `storeIdentifier` wrote, in the same variant,
gives the identifier back. -/
theorem groupAdress_storeIdentifier (WIN32 : Bool) (n : Nat) (m : Message)
    (data : List Nat) (hn : n < 65536) (hcap : 2 ≤ data.length)
    (h0 : m.data.getD 0 0 = (storeIdentifier WIN32 n data).getD 0 0)
    (h1 : m.data.getD 1 0 = (storeIdentifier WIN32 n data).getD 1 0) :
    groupAdress WIN32 m 0 = n := by
  obtain ⟨a, b, c, d⟩ := storeIdentifier_bytes n data hn hcap
  unfold groupAdress
  cases WIN32
  · simp only [Bool.false_eq_true, if_false, Nat.zero_add]
    rw [h0, h1, a, b]
    exact word_identifier n hn
  · simp only [if_true, Nat.zero_add]
    rw [h0, h1, c, d]
    exact word_identifier n hn

theorem ReadRequest_present {σ : Type} (H : Header) (WIN32 : Bool) (io : IoContainer σ)
    (s : σ) (idx : Int) (e : IoElement) (m : Message)
    (he : io.GetIoElement s idx = some e) :
    ReadRequest H WIN32 io s idx (some m) =
      (true, some { nodeid := 0xc0, command := H.READREQ, length := 2,
                    data := storeIdentifier WIN32 e.nIdentifer m.data }) := by
  simp only [ReadRequest, he]

theorem WriteRequest_present {σ : Type} (H : Header) (WIN32 : Bool) (io : IoContainer σ)
    (s : σ) (idx : Int) (e : IoElement) (m : Message)
    (he : io.GetIoElement s idx = some e) :
    WriteRequest H WIN32 io s idx m =
      (true, { nodeid := 0xc0, command := H.WRITEREQ,
               length := (2 + io.GetIoSize s idx) % 256,
               data := memcpy (storeIdentifier WIN32 e.nIdentifer m.data) 2 e.ioVal
                 (io.GetIoSize s idx) }) := by
  simp only [WriteRequest, he]

/-- C12, where the claim fails: for the identifier `0x6902` the two variants
of `ReadRequest` and of `WriteRequest` store different data bytes (`69 02`
with `WIN32`, `02 69` without), and for the payload bytes `00 10` the two
variants of the decoder obtain different addresses (`0x0010` with `WIN32`,
`0x1000` without). -/
theorem byte_order_differs_between_builds :
    (ReadRequest f1145 true listStore pendingStore 0 (some emptyMessage)).2 ≠
        (ReadRequest f1145 false listStore pendingStore 0 (some emptyMessage)).2 ∧
      (WriteRequest f1145 true listStore pendingStore 0 emptyMessage).2 ≠
        (WriteRequest f1145 false listStore pendingStore 0 emptyMessage).2 ∧
      groupAdress true twoElements 0 = 0x0010 ∧
      groupAdress false twoElements 0 = 0x1000 := by
  decide

/-- C12 as amended: the byte order of the 16-bit identifier and address is
fixed by the build target.  Built without `WIN32`, `ReadRequest` and
`WriteRequest` store the low byte of the identifier in `data[0]` and the high
byte in `data[1]`, and the decoder of `HandleMessage` takes `data[i]` as the
low and `data[i + 1]` as the high byte of the address; built with `WIN32`
the two bytes are exchanged in all three places (high byte first). -/
theorem byte_order_by_build {σ : Type} (H : Header) (io : IoContainer σ)
    (s : σ) (idx : Int) (e : IoElement) (m pMsg : Message) (i : Nat)
    (he : io.GetIoElement s idx = some e) (hid : e.nIdentifer < 65536)
    (hcap : 2 ≤ m.data.length) :
    (∃ a b, ReadRequest H true io s idx (some m) = (true, some a) ∧
        ReadRequest H false io s idx (some m) = (true, some b) ∧
        b.data.getD 0 0 = e.nIdentifer &&& 0xff ∧ b.data.getD 1 0 = e.nIdentifer >>> 8 ∧
        a.data.getD 0 0 = e.nIdentifer >>> 8 ∧ a.data.getD 1 0 = e.nIdentifer &&& 0xff) ∧
    (∃ a b, WriteRequest H true io s idx m = (true, a) ∧
        WriteRequest H false io s idx m = (true, b) ∧
        b.data.getD 0 0 = e.nIdentifer &&& 0xff ∧ b.data.getD 1 0 = e.nIdentifer >>> 8 ∧
        a.data.getD 0 0 = e.nIdentifer >>> 8 ∧ a.data.getD 1 0 = e.nIdentifer &&& 0xff) ∧
    (groupAdress false pMsg i % 256 = pMsg.data.getD i 0 % 256 ∧
      groupAdress false pMsg i / 256 = pMsg.data.getD (i + 1) 0 % 256 ∧
      groupAdress true pMsg i % 256 = pMsg.data.getD (i + 1) 0 % 256 ∧
      groupAdress true pMsg i / 256 = pMsg.data.getD i 0 % 256) := by
  obtain ⟨a, b, c, d⟩ := storeIdentifier_bytes e.nIdentifer m.data hid hcap
  refine ⟨⟨_, _, ReadRequest_present H true io s idx e m he,
      ReadRequest_present H false io s idx e m he, a, b, c, d⟩,
    ⟨_, _, WriteRequest_present H true io s idx e m he,
      WriteRequest_present H false io s idx e m he, ?_, ?_, ?_, ?_⟩, ?_⟩
  · simpa only [memcpy_getD_below _ 2 _ _ 0 (by decide)] using a
  · simpa only [memcpy_getD_below _ 2 _ _ 1 (by decide)] using b
  · simpa only [memcpy_getD_below _ 2 _ _ 0 (by decide)] using c
  · simpa only [memcpy_getD_below _ 2 _ _ 1 (by decide)] using d
  · simp only [groupAdress, Bool.false_eq_true, if_false, if_true]
    exact ⟨word_low _ _, word_high _ _, word_low _ _, word_high _ _⟩

/-- The identifier `0x6902` in both variants, and the address of the first
group of `twoElements` in both variants. -/
theorem byte_order_by_build_witness :
    (∃ a b, ReadRequest f1145 true listStore pendingStore 0 (some emptyMessage) =
          (true, some a) ∧
        ReadRequest f1145 false listStore pendingStore 0 (some emptyMessage) =
          (true, some b) ∧
        b.data.getD 0 0 = 0x6902 &&& 0xff ∧ b.data.getD 1 0 = 0x6902 >>> 8 ∧
        a.data.getD 0 0 = 0x6902 >>> 8 ∧ a.data.getD 1 0 = 0x6902 &&& 0xff) ∧
      groupAdress false twoElements 0 % 256 = 0x00 ∧
      groupAdress true twoElements 0 % 256 = 0x10 :=
  have h := byte_order_by_build f1145 listStore pendingStore 0
    { nIdentifer := 0x6902, ioVal := [0xCE, 0xFF, 0x00, 0x00] } emptyMessage twoElements 0
    (by decide) (by decide) (by decide)
  ⟨h.1, h.2.2.1, h.2.2.2.2.1⟩

/-- C17: within one build target the request builders and the decoder agree
on the byte order.  For a 16-bit identifier, the address expression of the
decoder, applied to `data[0]`, `data[1]` as `ReadRequest` (respectively
`WriteRequest`) of the same variant left them, is the identifier again. -/
theorem request_decode_round_trip {σ : Type} (H : Header) (WIN32 : Bool)
    (io : IoContainer σ) (s : σ) (idx : Int) (e : IoElement) (m : Message)
    (he : io.GetIoElement s idx = some e) (hid : e.nIdentifer < 65536)
    (hcap : 2 ≤ m.data.length) :
    (∃ r, ReadRequest H WIN32 io s idx (some m) = (true, some r) ∧
        groupAdress WIN32 r 0 = e.nIdentifer) ∧
    (∃ r, WriteRequest H WIN32 io s idx m = (true, r) ∧
        groupAdress WIN32 r 0 = e.nIdentifer) := by
  refine ⟨⟨_, ReadRequest_present H WIN32 io s idx e m he, ?_⟩,
    ⟨_, WriteRequest_present H WIN32 io s idx e m he, ?_⟩⟩
  · exact groupAdress_storeIdentifier WIN32 e.nIdentifer _ m.data hid hcap rfl rfl
  · exact groupAdress_storeIdentifier WIN32 e.nIdentifer _ m.data hid hcap
      (memcpy_getD_below _ 2 _ _ 0 (by decide)) (memcpy_getD_below _ 2 _ _ 1 (by decide))

/-- The identifier `0x6902` through `ReadRequest` and `WriteRequest` and back,
built with `WIN32`. -/
theorem request_decode_round_trip_witness :
    (∃ r, ReadRequest f1145 true listStore pendingStore 0 (some emptyMessage) =
          (true, some r) ∧ groupAdress true r 0 = 0x6902) ∧
      (∃ r, WriteRequest f1145 true listStore pendingStore 0 emptyMessage = (true, r) ∧
          groupAdress true r 0 = 0x6902) :=
  request_decode_round_trip f1145 true listStore pendingStore 0
    { nIdentifer := 0x6902, ioVal := [0xCE, 0xFF, 0x00, 0x00] } emptyMessage
    (by decide) (by decide) (by decide)

/-! ## The return value -/

/-- C16: `HandleMessage` returns `true` exactly when the command is one of
`DATABLOCK`, `READDATA`, `READREQ`, `WRITEREQ`.  In particular it returns
`true` for `READREQ` and for `WRITEREQ` when no element is pending, no
request frame is built and only the `ACK` is sent. -/
theorem HandleMessage_ret_iff {σ : Type} (H : Header) (WIN32 : Bool)
    (io : IoContainer σ) (s : σ) (txMsg pMsg : Message) :
    ((HandleMessage H WIN32 io s txMsg pMsg).ret = true ↔
      pMsg.command = H.DATABLOCK ∨ pMsg.command = H.READDATA ∨
        pMsg.command = H.READREQ ∨ pMsg.command = H.WRITEREQ) ∧
    (pMsg.command = H.READREQ →
      io.GetIoElement (io.GetExpiredIoElement s IoType.R).2
        (io.GetExpiredIoElement s IoType.R).1 = none →
      (HandleMessage H WIN32 io s txMsg pMsg).ret = true ∧
        (HandleMessage H WIN32 io s txMsg pMsg).trace = [Effect.txSend ACK]) ∧
    (pMsg.command = H.WRITEREQ →
      io.GetIoElement (io.GetExpiredIoElement s IoType.RW).2
        (io.GetExpiredIoElement s IoType.RW).1 = none →
      (HandleMessage H WIN32 io s txMsg pMsg).ret = true ∧
        (HandleMessage H WIN32 io s txMsg pMsg).trace = [Effect.txSend ACK]) := by
  refine ⟨?_, ?_, ?_⟩
  · simp only [HandleMessage]
    split_ifs with h1 h2 h3 h4 h5
    · exact ⟨fun _ => by tauto, fun _ => rfl⟩
    · exact ⟨fun _ => by tauto, fun _ => rfl⟩
    · exact ⟨fun _ => by tauto, fun _ => rfl⟩
    · exact ⟨fun _ => by tauto, fun _ => rfl⟩
    · exact ⟨fun _ => by tauto, fun _ => rfl⟩
    · constructor
      · intro h
        cases h
      · intro h
        exfalso
        tauto
  · intro hc habs
    simp [HandleMessage, hc, H.labels_ne.1, H.labels_ne.2.1, ReadRequest, habs]
  · intro hc habs
    simp [HandleMessage, hc, H.labels_ne.2.2.1, H.labels_ne.2.2.2.1, H.labels_ne.2.2.2.2,
      WriteRequest, habs]

/-- A `READREQ` and a `WRITEREQ` frame against the empty store are handled,
with the `ACK` as the only effect. -/
theorem HandleMessage_ret_iff_witness :
    ((HandleMessage f1145 false listStore [] emptyMessage
          { nodeid := 0x20, command := 0x69, length := 0, data := List.replicate 8 0 }).ret
          = true ∧
        (HandleMessage f1145 false listStore [] emptyMessage
          { nodeid := 0x20, command := 0x69, length := 0, data := List.replicate 8 0 }).trace
          = [Effect.txSend ACK]) ∧
      ((HandleMessage f1145 false listStore [] emptyMessage
          { nodeid := 0x20, command := 0x6b, length := 0, data := List.replicate 8 0 }).ret
          = true ∧
        (HandleMessage f1145 false listStore [] emptyMessage
          { nodeid := 0x20, command := 0x6b, length := 0, data := List.replicate 8 0 }).trace
          = [Effect.txSend ACK]) :=
  ⟨(HandleMessage_ret_iff f1145 false listStore [] emptyMessage
      { nodeid := 0x20, command := 0x69, length := 0, data := List.replicate 8 0 }).2.1
      (by decide) (by decide),
   (HandleMessage_ret_iff f1145 false listStore [] emptyMessage
      { nodeid := 0x20, command := 0x6b, length := 0, data := List.replicate 8 0 }).2.2
      (by decide) (by decide)⟩

/-! ## The number of passes through the loop -/

/-- The loop entered in state `st` is `max(1, ⌈(length - i) / 4⌉)` passes
through the body. -/
theorem decodeLoop_iterate {σ : Type} (H : Header) (WIN32 : Bool) (io : IoContainer σ)
    (pMsg : Message) :
    ∀ st : LoopState σ, decodeLoop H WIN32 io pMsg st =
      Nat.iterate (loopBody H WIN32 io pMsg) (max 1 ((pMsg.length - st.i + 3) / 4)) st := by
  intro st
  generalize hn : pMsg.length - st.i = n
  induction n using Nat.strong_induction_on generalizing st with
  | _ n ih =>
    rw [decodeLoop_unfold]
    split
    · rename_i hlt
      rw [ih (pMsg.length - (loopBody H WIN32 io pMsg st).i) (by rw [loopBody_i]; omega) _ rfl]
      rw [loopBody_i]
      have hk : max 1 ((n + 3) / 4) = max 1 ((pMsg.length - (st.i + 4) + 3) / 4) + 1 := by
        omega
      rw [hk, Function.iterate_succ_apply]
    · rename_i hge
      have hk : max 1 ((n + 3) / 4) = 1 := by omega
      rw [hk]
      rfl

theorem iterate_loopBody_i {σ : Type} (H : Header) (WIN32 : Bool) (io : IoContainer σ)
    (pMsg : Message) (st : LoopState σ) (k : Nat) :
    (Nat.iterate (loopBody H WIN32 io pMsg) k st).i = st.i + 4 * k := by
  induction k with
  | zero => rfl
  | succ k ih =>
    rw [Function.iterate_succ_apply', loopBody_i, ih]
    omega

theorem loopBody_writes_le {σ : Type} (H : Header) (WIN32 : Bool) (io : IoContainer σ)
    (pMsg : Message) (st : LoopState σ) :
    (writes (loopBody H WIN32 io pMsg st).trace).length ≤ (writes st.trace).length + 1 := by
  rw [loopBody_trace]
  split
  · simp [writes_append, writes]
  · omega

theorem loopBody_trace_of_size_zero {σ : Type} (H : Header) (WIN32 : Bool)
    (io : IoContainer σ) (pMsg : Message) (st : LoopState σ) (h : st.size = 0) :
    (loopBody H WIN32 io pMsg st).trace = st.trace := by
  rw [loopBody_trace, if_neg]
  omega

/-- After `k + 1` passes from the initial state at most `k` writes are made:
the first pass never writes. -/
theorem iterate_writes_le {σ : Type} (H : Header) (WIN32 : Bool) (io : IoContainer σ)
    (s : σ) (pMsg : Message) (k : Nat) :
    (writes (Nat.iterate (loopBody H WIN32 io pMsg) (k + 1) (loopInit H s)).trace).length
      ≤ k := by
  induction k with
  | zero =>
    rw [Function.iterate_one, loopBody_trace_of_size_zero _ _ _ _ _ rfl]
    simp [loopInit, writes]
  | succ k ih =>
    rw [Function.iterate_succ_apply']
    exact Nat.le_trans (loopBody_writes_le H WIN32 io pMsg _) (Nat.succ_le_succ ih)

/-- C18: for a `DATABLOCK` or `READDATA` message of length `L` the loop of
`HandleMessage` ends after exactly `max(1, ⌈L / 4⌉)` passes through its body
(`i` advances by 4 in every pass and is `4 * max(1, ⌈L / 4⌉)` at the end).
With `L = 0` the body still runs once, on the group in `data[0 .. 3]`.  The
number of value-store writes is at most the number of passes minus one. -/
theorem decodeLoop_passes {σ : Type} (H : Header) (WIN32 : Bool)
    (io : IoContainer σ) (s : σ) (txMsg pMsg : Message)
    (hc : pMsg.command = H.DATABLOCK ∨ pMsg.command = H.READDATA) :
    decodeLoop H WIN32 io pMsg (loopInit H s) =
        Nat.iterate (loopBody H WIN32 io pMsg) (max 1 ((pMsg.length + 3) / 4))
          (loopInit H s) ∧
      (decodeLoop H WIN32 io pMsg (loopInit H s)).i = 4 * max 1 ((pMsg.length + 3) / 4) ∧
      (pMsg.length = 0 →
        decodeLoop H WIN32 io pMsg (loopInit H s) =
          loopBody H WIN32 io pMsg (loopInit H s)) ∧
      (HandleMessage H WIN32 io s txMsg pMsg).trace =
        (decodeLoop H WIN32 io pMsg (loopInit H s)).trace ∧
      (writes (HandleMessage H WIN32 io s txMsg pMsg).trace).length ≤
        max 1 ((pMsg.length + 3) / 4) - 1 := by
  have hit := decodeLoop_iterate H WIN32 io pMsg (loopInit H s)
  have h0 : (loopInit H s).i = 0 := rfl
  rw [h0, Nat.sub_zero] at hit
  have htr : (HandleMessage H WIN32 io s txMsg pMsg).trace =
      (decodeLoop H WIN32 io pMsg (loopInit H s)).trace := by
    simp only [HandleMessage, hc, if_true]
  refine ⟨hit, ?_, ?_, htr, ?_⟩
  · rw [hit, iterate_loopBody_i, h0, Nat.zero_add]
  · intro hL
    rw [hit, hL]
    rfl
  · rw [htr, hit]
    obtain ⟨k, hk⟩ : ∃ k, max 1 ((pMsg.length + 3) / 4) = k + 1 :=
      ⟨max 1 ((pMsg.length + 3) / 4) - 1, by omega⟩
    rw [hk, Nat.add_sub_cancel]
    exact iterate_writes_le H WIN32 io s pMsg k

/-- The data block `emptyBlock` of length 0: one pass, no write. -/
theorem decodeLoop_passes_witness :
    decodeLoop f1145 false listStore emptyBlock (loopInit f1145 []) =
        loopBody f1145 false listStore emptyBlock (loopInit f1145 []) ∧
      (decodeLoop f1145 false listStore emptyBlock (loopInit f1145 [])).i = 4 ∧
      (writes (HandleMessage f1145 false listStore [] emptyMessage emptyBlock).trace).length
        ≤ 0 :=
  have h := decodeLoop_passes f1145 false listStore [] emptyMessage emptyBlock
    (Or.inl (by decide))
  ⟨h.2.2.1 (by decide), h.2.1, h.2.2.2.2⟩

/-- The outcome of `HandleMessage` depends on the length of the message only
through the number of passes: a trailing partial group is decoded like a
complete one, so the outcome is that of the message with its length rounded
up to the next multiple of 4. -/
theorem HandleMessage_length_rounded_up {σ : Type} (H : Header) (WIN32 : Bool)
    (io : IoContainer σ) (s : σ) (txMsg pMsg : Message) :
    HandleMessage H WIN32 io s txMsg pMsg =
      HandleMessage H WIN32 io s txMsg
        { pMsg with length := 4 * ((pMsg.length + 3) / 4) } := by
  have hb : loopBody H WIN32 io { pMsg with length := 4 * ((pMsg.length + 3) / 4) } =
      loopBody H WIN32 io pMsg := rfl
  have hl : decodeLoop H WIN32 io { pMsg with length := 4 * ((pMsg.length + 3) / 4) }
      (loopInit H s) = decodeLoop H WIN32 io pMsg (loopInit H s) := by
    rw [decodeLoop_iterate, decodeLoop_iterate, hb]
    have h0 : (loopInit H s).i = 0 := rfl
    simp only [h0, Nat.sub_zero]
    congr 1
    omega
  simp only [HandleMessage, hl]

/-- C11, the code on a payload with a trailing partial group: for the data
block `partialGroup` of length 5 the body runs a second time on the group at
offset 4, which lies beyond the last complete group, and this writes the first
element.  The same message truncated to length 4 gives no write, and so
does the message of length 5 with the bytes at index 4 and 5 replaced by the
sentinel: bytes at indices from 4 on decide about the writes. -/
theorem HandleMessage_partial_group_decoded :
    writes (HandleMessage f1145 false listStore [] emptyMessage partialGroup).trace =
        [(0x1000, [0xAA, 0xBB], 2)] ∧
      writes (HandleMessage f1145 true listStore [] emptyMessage partialGroup).trace =
        [(0x0010, [0xAA, 0xBB], 2)] ∧
      writes (HandleMessage f1145 false listStore [] emptyMessage
        { partialGroup with length := 4 * (partialGroup.length / 4) }).trace = [] ∧
      writes (HandleMessage f1145 false listStore [] emptyMessage
        { partialGroup with data := [0x00, 0x10, 0xAA, 0xBB, 0xFF, 0xFF, 0xCC, 0xDD] }).trace
        = [] := by
  refine ⟨?_, ?_, ?_, ?_⟩
  · simp only [HandleMessage]
    rw [if_pos (by decide), decodeLoop_twice _ _ _ _ _ (by decide) (by decide)]
    decide
  · simp only [HandleMessage]
    rw [if_pos (by decide), decodeLoop_twice _ _ _ _ _ (by decide) (by decide)]
    decide
  · simp only [HandleMessage]
    rw [if_pos (by decide), decodeLoop_once _ _ _ _ _ (by decide)]
    decide
  · simp only [HandleMessage]
    rw [if_pos (by decide), decodeLoop_twice _ _ _ _ _ (by decide) (by decide)]
    decide

/-! ## The accumulated size -/

theorem loopBody_size {σ : Type} (H : Header) (WIN32 : Bool) (io : IoContainer σ)
    (pMsg : Message) (st : LoopState σ) :
    (loopBody H WIN32 io pMsg st).size =
      if sizeAtAppend WIN32 pMsg st < H.valueSize - 1 then sizeAtAppend WIN32 pMsg st + 2
      else sizeAtAppend WIN32 pMsg st := by
  simp only [loopBody, sizeAtAppend]
  split_ifs <;> rfl

theorem loopBody_array {σ : Type} (H : Header) (WIN32 : Bool) (io : IoContainer σ)
    (pMsg : Message) (st : LoopState σ) :
    (loopBody H WIN32 io pMsg st).data.array =
      if sizeAtAppend WIN32 pMsg st < H.valueSize - 1 then
        (st.data.array.set (sizeAtAppend WIN32 pMsg st) (pMsg.data.getD (st.i + 2) 0)).set
          (sizeAtAppend WIN32 pMsg st + 1) (pMsg.data.getD (st.i + 3) 0)
      else st.data.array := by
  simp only [loopBody, sizeAtAppend]
  split_ifs <;> rfl

theorem sizeAtAppend_cases {σ : Type} (WIN32 : Bool) (pMsg : Message) (st : LoopState σ) :
    sizeAtAppend WIN32 pMsg st = 0 ∨ sizeAtAppend WIN32 pMsg st = st.size := by
  unfold sizeAtAppend
  split
  · exact Or.inl rfl
  · exact Or.inr rfl

theorem loopBody_sizeBounds {σ : Type} (H : Header) (WIN32 : Bool) (io : IoContainer σ)
    (pMsg : Message) (st : LoopState σ) (h : SizeBounds H st) :
    SizeBounds H (loopBody H WIN32 io pMsg st) := by
  obtain ⟨hev, hle, hlen, htr⟩ := h
  refine ⟨?_, ?_, ?_, ?_⟩
  · rw [loopBody_size]
    rcases sizeAtAppend_cases WIN32 pMsg st with h0 | h0 <;> rw [h0] <;> split <;> omega
  · rw [loopBody_size]
    rcases sizeAtAppend_cases WIN32 pMsg st with h0 | h0 <;> rw [h0] <;> split <;> omega
  · rw [loopBody_array]
    split <;> simp [hlen]
  · intro a arr sz hmem
    rw [loopBody_trace] at hmem
    split at hmem
    · rename_i hf
      rcases List.mem_append.1 hmem with hmem | hmem
      · exact htr a arr sz hmem
      · simp only [List.mem_singleton, Effect.SetIoVal.injEq] at hmem
        obtain ⟨-, harr, hsz⟩ := hmem
        subst hsz
        subst harr
        exact ⟨hev, by omega, hle, hlen⟩
    · exact htr a arr sz hmem

theorem iterate_sizeBounds {σ : Type} (H : Header) (WIN32 : Bool) (io : IoContainer σ)
    (s : σ) (pMsg : Message) (k : Nat) :
    SizeBounds H (Nat.iterate (loopBody H WIN32 io pMsg) k (loopInit H s)) := by
  induction k with
  | zero =>
    exact ⟨rfl, Nat.zero_le _, by simp [loopInit], by simp [loopInit]⟩
  | succ k ih =>
    rw [Function.iterate_succ_apply']
    exact loopBody_sizeBounds H WIN32 io pMsg _ ih

theorem loopBody_full_continuation {σ : Type} (H : Header) (WIN32 : Bool)
    (io : IoContainer σ) (pMsg : Message) (st : LoopState σ)
    (hsen : groupAdress WIN32 pMsg st.i = 0xffff) (hfull : ¬ st.size < H.valueSize - 1) :
    (loopBody H WIN32 io pMsg st).data = st.data ∧
      (loopBody H WIN32 io pMsg st).size = st.size ∧
      (loopBody H WIN32 io pMsg st).trace = st.trace := by
  simp [loopBody, hsen, hfull]

/-- C15: in every state the loop of `HandleMessage` passes through (the
state after `k` passes, for every `k` and every payload) the accumulated
`size` is even and at most `sizeof(data.value.array)`.  Hence the two stores
into the value array, at the indices `size` and `size + 1`, are made within
the array whenever the test of line 118 lets them happen; every size handed
to `SetIoVal` is even and between 2 and the size of the array, the array
handed over being all of the value array; and a group with the sentinel
address that arrives when the test of line 118 fails leaves the accumulated
value, its size and the trace as they are. -/
theorem decoding_size_within_bounds {σ : Type} (H : Header) (WIN32 : Bool)
    (io : IoContainer σ) (s : σ) (txMsg pMsg : Message) (k : Nat) (st : LoopState σ)
    (hst : st = Nat.iterate (loopBody H WIN32 io pMsg) k (loopInit H s)) :
    (st.size % 2 = 0 ∧ st.size ≤ H.valueSize) ∧
      st.data.array.length = H.valueSize ∧
      (sizeAtAppend WIN32 pMsg st < H.valueSize - 1 →
        sizeAtAppend WIN32 pMsg st + 1 < st.data.array.length) ∧
      (groupAdress WIN32 pMsg st.i = 0xffff → ¬ st.size < H.valueSize - 1 →
        (loopBody H WIN32 io pMsg st).data = st.data ∧
          (loopBody H WIN32 io pMsg st).size = st.size ∧
          (loopBody H WIN32 io pMsg st).trace = st.trace) ∧
      (pMsg.command = H.DATABLOCK ∨ pMsg.command = H.READDATA →
        ∀ a arr sz, Effect.SetIoVal a arr sz ∈ (HandleMessage H WIN32 io s txMsg pMsg).trace →
          sz % 2 = 0 ∧ 2 ≤ sz ∧ sz ≤ H.valueSize ∧ arr.length = H.valueSize) := by
  have hb : SizeBounds H st := hst ▸ iterate_sizeBounds H WIN32 io s pMsg k
  obtain ⟨hev, hle, hlen, -⟩ := hb
  refine ⟨⟨hev, hle⟩, hlen, ?_, loopBody_full_continuation H WIN32 io pMsg st, ?_⟩
  · intro h
    omega
  · intro hc a arr sz hmem
    simp only [HandleMessage, hc, if_true] at hmem
    rw [decodeLoop_iterate] at hmem
    exact (iterate_sizeBounds H WIN32 io s pMsg _).2.2.2 a arr sz hmem

/-- The data block `fullContinuation`: after two passes the value array is
full (`size = 4`), and the third group, a continuation, is dropped. -/
theorem decoding_size_within_bounds_witness :
    (Nat.iterate (loopBody f1145 false listStore fullContinuation) 2
        (loopInit f1145 [])).size = 4 ∧
      (loopBody f1145 false listStore fullContinuation
        (Nat.iterate (loopBody f1145 false listStore fullContinuation) 2
          (loopInit f1145 []))).data =
        (Nat.iterate (loopBody f1145 false listStore fullContinuation) 2
          (loopInit f1145 [])).data :=
  ⟨by decide,
   ((decoding_size_within_bounds f1145 false listStore [] emptyMessage fullContinuation 2
      _ rfl).2.2.2.1 (by decide) (by decide)).1⟩

/-! ## The decoder and the specified algorithm -/

theorem mem_groupOffsets (L off : Nat) :
    off ∈ groupOffsets L ↔ off % 4 = 0 ∧ off < L := by
  simp only [groupOffsets, List.mem_map, List.mem_range]
  constructor
  · rintro ⟨k, hk, rfl⟩
    omega
  · rintro ⟨h4, hlt⟩
    exact ⟨off / 4, by omega, by omega⟩

theorem take_set_set (arr : List Nat) (sz x y : Nat) (h : sz + 1 < arr.length) :
    ((arr.set sz x).set (sz + 1) y).take (sz + 2) = arr.take sz ++ [x, y] := by
  induction arr generalizing sz with
  | nil => simp at h
  | cons a t ih =>
    cases sz with
    | zero =>
      match t, h with
      | _ :: _, _ => rfl
    | succ n =>
      have hn : n + 1 < t.length := by simpa using h
      simp only [List.set_cons_succ, List.take_succ_cons, List.cons_append, List.cons.injEq,
        true_and]
      exact ih n hn

/-- One pass through the body is one group of the specified algorithm: the
state and the accumulator stay in correspondence, and the pass writes what
the group emits. -/
theorem loopBody_corresponds {σ : Type} (H : Header) (WIN32 : Bool) (io : IoContainer σ)
    (pMsg : Message) (st : LoopState σ) (acc : Accumulator) (h : Corresponds H st acc) :
    Corresponds H (loopBody H WIN32 io pMsg st)
        (specGroup H.valueSize acc (groupAdress WIN32 pMsg st.i)
          (pMsg.data.getD (st.i + 2) 0) (pMsg.data.getD (st.i + 3) 0)).1 ∧
      writes (loopBody H WIN32 io pMsg st).trace =
        writes st.trace ++
          (specGroup H.valueSize acc (groupAdress WIN32 pMsg st.i)
            (pMsg.data.getD (st.i + 2) 0) (pMsg.data.getD (st.i + 3) 0)).2 := by
  obtain ⟨hadr, hsize, hval, hlen, hle⟩ := h
  by_cases hf : 0 < st.size ∧ groupAdress WIN32 pMsg st.i ≠ 0xffff
  · have hf2 : acc.current_size ≠ 0 ∧ groupAdress WIN32 pMsg st.i ≠ 0xffff :=
      ⟨by omega, hf.2⟩
    have hsa : sizeAtAppend WIN32 pMsg st = 0 := by
      unfold sizeAtAppend
      rw [if_pos hf]
    have htr : writes (loopBody H WIN32 io pMsg st).trace =
        writes st.trace ++ [(acc.current_address, acc.current_value_bytes, acc.current_size)] := by
      rw [loopBody_trace, if_pos hf, writes_append]
      simp only [writes, hadr, hval]
      rw [hsize]
    by_cases hr : 0 < H.valueSize - 1
    · have hs : specGroup H.valueSize acc (groupAdress WIN32 pMsg st.i)
          (pMsg.data.getD (st.i + 2) 0) (pMsg.data.getD (st.i + 3) 0) =
          ({ current_address := groupAdress WIN32 pMsg st.i,
             current_value_bytes := [pMsg.data.getD (st.i + 2) 0, pMsg.data.getD (st.i + 3) 0],
             current_size := 2 },
            [(acc.current_address, acc.current_value_bytes, acc.current_size)]) := by
        simp [specGroup, hf2, hr]
      rw [hs]
      refine ⟨⟨?_, ?_, ?_, ?_, ?_⟩, htr⟩
      · rw [loopBody_adress, if_pos hf.2]
      · rw [loopBody_size, hsa, if_pos hr]
      · rw [loopBody_size, loopBody_array, hsa, if_pos hr, if_pos hr]
        exact take_set_set _ 0 _ _ (by omega)
      · rw [loopBody_array, hsa, if_pos hr]
        simp [hlen]
      · rw [loopBody_size, hsa, if_pos hr]
        omega
    · have hs : specGroup H.valueSize acc (groupAdress WIN32 pMsg st.i)
          (pMsg.data.getD (st.i + 2) 0) (pMsg.data.getD (st.i + 3) 0) =
          ({ current_address := groupAdress WIN32 pMsg st.i,
             current_value_bytes := [], current_size := 0 },
            [(acc.current_address, acc.current_value_bytes, acc.current_size)]) := by
        simp [specGroup, hf2, hr]
      rw [hs]
      refine ⟨⟨?_, ?_, ?_, ?_, ?_⟩, htr⟩
      · rw [loopBody_adress, if_pos hf.2]
      · rw [loopBody_size, hsa, if_neg hr]
      · rw [loopBody_size, hsa, if_neg hr]
        rfl
      · rw [loopBody_array, hsa, if_neg hr]
        exact hlen
      · rw [loopBody_size, hsa, if_neg hr]
        omega
  · have hf2 : ¬ (acc.current_size ≠ 0 ∧ groupAdress WIN32 pMsg st.i ≠ 0xffff) := by
      intro h
      exact hf ⟨by omega, h.2⟩
    have hsa : sizeAtAppend WIN32 pMsg st = st.size := by
      unfold sizeAtAppend
      rw [if_neg hf]
    have htr : writes (loopBody H WIN32 io pMsg st).trace = writes st.trace ++ [] := by
      rw [loopBody_trace, if_neg hf, List.append_nil]
    have hadr2 : (loopBody H WIN32 io pMsg st).data.adress =
        if groupAdress WIN32 pMsg st.i ≠ 0xffff then groupAdress WIN32 pMsg st.i
        else acc.current_address := by
      rw [loopBody_adress, hadr]
    by_cases hr : st.size < H.valueSize - 1
    · have hr2 : acc.current_size < H.valueSize - 1 := by omega
      have hs : specGroup H.valueSize acc (groupAdress WIN32 pMsg st.i)
          (pMsg.data.getD (st.i + 2) 0) (pMsg.data.getD (st.i + 3) 0) =
          ({ current_address :=
               if groupAdress WIN32 pMsg st.i ≠ 0xffff then groupAdress WIN32 pMsg st.i
               else acc.current_address,
             current_value_bytes := acc.current_value_bytes ++
               [pMsg.data.getD (st.i + 2) 0, pMsg.data.getD (st.i + 3) 0],
             current_size := acc.current_size + 2 }, []) := by
        simp only [specGroup, hf2, if_false]
        split_ifs <;> simp_all
      rw [hs]
      refine ⟨⟨hadr2, ?_, ?_, ?_, ?_⟩, htr⟩
      · rw [loopBody_size, hsa, if_pos hr, hsize]
      · rw [loopBody_size, loopBody_array, hsa, if_pos hr, if_pos hr, ← hval]
        exact take_set_set _ _ _ _ (by omega)
      · rw [loopBody_array, hsa, if_pos hr]
        simp [hlen]
      · rw [loopBody_size, hsa, if_pos hr]
        omega
    · have hr2 : ¬ acc.current_size < H.valueSize - 1 := by omega
      have hs : specGroup H.valueSize acc (groupAdress WIN32 pMsg st.i)
          (pMsg.data.getD (st.i + 2) 0) (pMsg.data.getD (st.i + 3) 0) =
          ({ current_address :=
               if groupAdress WIN32 pMsg st.i ≠ 0xffff then groupAdress WIN32 pMsg st.i
               else acc.current_address,
             current_value_bytes := acc.current_value_bytes,
             current_size := acc.current_size }, []) := by
        simp only [specGroup, hf2, if_false]
        split_ifs <;> simp_all
      rw [hs]
      refine ⟨⟨hadr2, ?_, ?_, ?_, ?_⟩, htr⟩
      · rw [loopBody_size, hsa, if_neg hr, hsize]
      · rw [loopBody_size, loopBody_array, hsa, if_neg hr, if_neg hr]
        exact hval
      · rw [loopBody_array, hsa, if_neg hr]
        exact hlen
      · rw [loopBody_size, hsa, if_neg hr]
        exact hle

/-- Passing `k` times through the body from a state in correspondence with
`acc` writes the flush sequence of the specified algorithm over the next `k`
groups. -/
theorem iterate_corresponds {σ : Type} (H : Header) (WIN32 : Bool) (io : IoContainer σ)
    (pMsg : Message) :
    ∀ (k : Nat) (st : LoopState σ) (acc : Accumulator), Corresponds H st acc →
      writes (Nat.iterate (loopBody H WIN32 io pMsg) k st).trace =
        writes st.trace ++
          specFlushes H.valueSize WIN32 pMsg
            ((List.range k).map (fun j => st.i + 4 * j)) acc := by
  intro k
  induction k with
  | zero =>
    intro st acc _
    simp [specFlushes]
  | succ k ih =>
    intro st acc h
    obtain ⟨hc, hw⟩ := loopBody_corresponds H WIN32 io pMsg st acc h
    rw [Function.iterate_succ_apply, ih _ _ hc, hw, List.range_succ_eq_map, List.map_cons,
      List.map_map, loopBody_i]
    simp only [Nat.mul_zero, Nat.add_zero, specFlushes, List.append_assoc]
    congr 3
    apply List.map_congr_left
    intro j _
    simp only [Function.comp_apply]
    omega

/-- C14: for a `DATABLOCK` or `READDATA` message the value-store writes of
`HandleMessage`, in order, are the flush sequence of the specified
accumulator algorithm run over the groups at the offsets 0, 4, 8, ... below
the message length, from address 0, the empty value and size 0 on.  Every
write is the emission of a flush step and every flush step is a write. -/
theorem HandleMessage_writes_eq_specDecode {σ : Type} (H : Header) (WIN32 : Bool)
    (io : IoContainer σ) (s : σ) (txMsg pMsg : Message)
    (hc : pMsg.command = H.DATABLOCK ∨ pMsg.command = H.READDATA) :
    writes (HandleMessage H WIN32 io s txMsg pMsg).trace =
      specDecode H.valueSize WIN32 pMsg := by
  simp only [HandleMessage, hc, if_true]
  rw [decodeLoop_iterate]
  have h0 : (loopInit H s).i = 0 := rfl
  rw [h0, Nat.sub_zero]
  by_cases hL : (pMsg.length + 3) / 4 = 0
  · rw [hL]
    have h1 : max 1 0 = 1 := rfl
    rw [h1, Function.iterate_one, loopBody_trace_of_size_zero _ _ _ _ _ rfl]
    simp [specDecode, groupOffsets, hL, specFlushes, loopInit, writes]
  · have h1 : max 1 ((pMsg.length + 3) / 4) = (pMsg.length + 3) / 4 := by omega
    have hcor : Corresponds H (loopInit H s)
        { current_address := 0, current_value_bytes := [], current_size := 0 } :=
      ⟨rfl, rfl, rfl, by simp [loopInit], Nat.zero_le _⟩
    rw [h1, iterate_corresponds H WIN32 io pMsg _ _ _ hcor]
    simp [specDecode, groupOffsets, loopInit, writes]

/-- The data block `partialGroup`: the one write is the one flush of the
specified algorithm over the offsets 0 and 4. -/
theorem HandleMessage_writes_eq_specDecode_witness :
    groupOffsets partialGroup.length = [0, 4] ∧
      specDecode 4 true partialGroup = [(0x0010, [0xAA, 0xBB], 2)] ∧
      writes (HandleMessage f1145 true listStore [] emptyMessage partialGroup).trace =
        specDecode 4 true partialGroup :=
  ⟨by decide, by decide,
   HandleMessage_writes_eq_specDecode f1145 true listStore [] emptyMessage partialGroup
      (Or.inl (by decide))⟩

/-! ## Frame validation and the reply -/

/-- The transmissions of `HandleMessage` for a command other than `READREQ`
and `WRITEREQ`: one `ACK`. -/
theorem HandleMessage_ack_only {σ : Type} (H : Header) (WIN32 : Bool)
    (io : IoContainer σ) (s : σ) (txMsg pMsg : Message)
    (h3 : pMsg.command ≠ H.READREQ) (h4 : pMsg.command ≠ H.WRITEREQ) :
    transmissions (HandleMessage H WIN32 io s txMsg pMsg).trace = [Effect.rxSend ACK] ∨
      transmissions (HandleMessage H WIN32 io s txMsg pMsg).trace = [Effect.txSend ACK] := by
  by_cases hd : pMsg.command = H.DATABLOCK ∨ pMsg.command = H.READDATA
  · left
    obtain ⟨ws, hws, hall⟩ := decodeLoop_ackThenWrites H WIN32 io s pMsg
    simp only [HandleMessage, hd, if_true, hws, transmissions,
      transmissions_of_writes ws hall]
  · right
    simp only [HandleMessage, if_neg hd, if_neg h3, if_neg h4, transmissions]

/-- The trace of `HandleMessage` for `READREQ` and `WRITEREQ`: the request
frame in the Tx buffer, or one `ACK`. -/
theorem HandleMessage_request_or_ack {σ : Type} (H : Header) (WIN32 : Bool)
    (io : IoContainer σ) (s : σ) (txMsg pMsg : Message)
    (h : pMsg.command = H.READREQ ∨ pMsg.command = H.WRITEREQ) :
    (HandleMessage H WIN32 io s txMsg pMsg).trace =
        [Effect.txSendMessage (HandleMessage H WIN32 io s txMsg pMsg).txMsg] ∨
      (HandleMessage H WIN32 io s txMsg pMsg).trace = [Effect.txSend ACK] := by
  rcases h with h | h
  · simp only [HandleMessage, h, H.labels_ne.1, H.labels_ne.2.1, or_self, if_false, if_true]
    split_ifs
    · exact Or.inl rfl
    · exact Or.inr rfl
  · simp only [HandleMessage, h, H.labels_ne.2.2.1, H.labels_ne.2.2.2.1,
      H.labels_ne.2.2.2.2, or_self, if_false, if_true]
    split_ifs
    · exact Or.inl rfl
    · exact Or.inr rfl

/-- C13, where the claim fails: the `READREQ` frame `readToken` has a valid
checksum, and with an element pending in the value store it is answered with
the read-request frame `C0 69 02 02 69`, not with an `ACK`. -/
theorem valid_frame_answered_with_request :
    readToken.valid = true ∧
      (receive f1145 false listStore pendingStore emptyMessage readToken).trace =
        [Effect.txSendMessage
          { nodeid := 0xc0, command := 0x69, length := 2
            data := [0x02, 0x69, 0, 0, 0, 0, 0, 0] }] ∧
      Effect.rxSend ACK ∉
        (receive f1145 false listStore pendingStore emptyMessage readToken).trace ∧
      Effect.txSend ACK ∉
        (receive f1145 false listStore pendingStore emptyMessage readToken).trace := by
  decide

/-- C13 as amended: a received frame is valid exactly when its trailing
checksum byte is the exclusive-or of command, length and the data bytes.  A
valid frame is dispatched, and the reply is the one of `HandleMessage`: for a
command other than `READREQ` and `WRITEREQ` one `ACK` (0x06); for `READREQ`
and `WRITEREQ` the request frame, or one `ACK` when no request is built.  An
invalid frame is answered with `NAK` (0x15) alone, is not dispatched and
causes no value-store write. -/
theorem receive_reply {σ : Type} (H : Header) (WIN32 : Bool)
    (io : IoContainer σ) (s : σ) (txMsg : Message) (f : Frame) :
    (f.valid = true ↔ f.checksum = checksum f.msg) ∧
    (f.valid = true →
      receive H WIN32 io s txMsg f = HandleMessage H WIN32 io s txMsg f.msg) ∧
    (f.valid = true → f.msg.command ≠ H.READREQ → f.msg.command ≠ H.WRITEREQ →
      transmissions (receive H WIN32 io s txMsg f).trace = [Effect.rxSend ACK] ∨
        transmissions (receive H WIN32 io s txMsg f).trace = [Effect.txSend ACK]) ∧
    (f.valid = true → f.msg.command = H.READREQ ∨ f.msg.command = H.WRITEREQ →
      (receive H WIN32 io s txMsg f).trace =
          [Effect.txSendMessage (receive H WIN32 io s txMsg f).txMsg] ∨
        (receive H WIN32 io s txMsg f).trace = [Effect.txSend ACK]) ∧
    (f.valid = false →
      (receive H WIN32 io s txMsg f).trace = [Effect.rxSend NAK] ∧
        (receive H WIN32 io s txMsg f).ret = false ∧
        (receive H WIN32 io s txMsg f).store = s ∧
        writes (receive H WIN32 io s txMsg f).trace = []) := by
  refine ⟨?_, ?_, ?_, ?_, ?_⟩
  · simp only [Frame.valid, decide_eq_true_eq]
  · intro hv
    simp only [receive, hv, if_true]
  · intro hv h3 h4
    simp only [receive, hv, if_true]
    exact HandleMessage_ack_only H WIN32 io s txMsg f.msg h3 h4
  · intro hv h
    simp only [receive, hv, if_true]
    exact HandleMessage_request_or_ack H WIN32 io s txMsg f.msg h
  · intro hv
    have hr : receive H WIN32 io s txMsg f =
        { ret := false, store := s, txMsg := txMsg, trace := [Effect.rxSend NAK] } := by
      simp only [receive, hv, Bool.false_eq_true, if_false]
    rw [hr]
    exact ⟨rfl, rfl, rfl, rfl⟩

/-- The data block `twoElements` with its checksum `0x50` is dispatched and
answered with one `ACK`; with the checksum `0x51` it is answered with `NAK`
and nothing is written. -/
theorem receive_reply_witness :
    (transmissions (receive f1145 false listStore [] emptyMessage twoElementsFrame).trace =
          [Effect.rxSend ACK] ∨
        transmissions (receive f1145 false listStore [] emptyMessage twoElementsFrame).trace =
          [Effect.txSend ACK]) ∧
      (receive f1145 false listStore [] emptyMessage corruptedFrame).trace =
        [Effect.rxSend NAK] ∧
      writes (receive f1145 false listStore [] emptyMessage corruptedFrame).trace = [] :=
  ⟨(receive_reply f1145 false listStore [] emptyMessage twoElementsFrame).2.2.1
      (by decide) (by decide) (by decide),
   ((receive_reply f1145 false listStore [] emptyMessage corruptedFrame).2.2.2.2
      (by decide)).1,
   ((receive_reply f1145 false listStore [] emptyMessage corruptedFrame).2.2.2.2
      (by decide)).2.2.2⟩

end NibeHeater
